import Mathlib

/-!
# Verification of the local data-management engine

A shallow embedding, in Lean 4, of the JavaScript point-of-sale data engine:
the JSON value model, the validation/normalisation pass (`normalizeDB`), the
conflict-aware merge (`mergeDBSmart` / `mergeEstoque`), the checksummed
backup export/import (`exportDB` / `previewImport` / `checksum32` /
`createSnapshot`), the persistence manager (`safeSave`), and the typed domain
ledgers (stock movements, cash sessions, sale voids).

Modelling conventions, fixed once for the whole file:
* JavaScript values parsed from / serialised to JSON are modelled by `JVal`.
  JSON numbers are modelled as integers (`Int`): all domain quantities are
  integer cents/counts, and the fractional and NaN/Infinity corners of JS
  floats are outside the model.  String-to-number coercions are modelled so
  that a string parses exactly when it denotes an integer.
* JS strings are modelled by `String` with `charCodeAt` as the code point;
  this is exact for code points below `0x10000` (the data at hand is ASCII).
* Objects are association lists in insertion order, mirroring JS property
  order; property update keeps the position, property creation appends.
* In-place mutation is modelled by value passing; `localStorage` is modelled
  by an explicit store value threaded through the operations.
* `Date.now()/toISOString()` and `generateId` are modelled by explicit
  timestamp parameters and a fresh-id counter.
-/

set_option maxHeartbeats 1600000
set_option maxRecDepth 200000

namespace Spec2Proof

/-- A JavaScript/JSON value (numbers restricted to integers, see header). -/
inductive JVal where
  | jnull
  | jbool (b : Bool)
  | jnum (n : Int)
  | jstr (s : String)
  | jarr (xs : List JVal)
  | jobj (fields : List (String × JVal))
deriving Inhabited

namespace JVal

mutual
/-- Boolean structural equality on `JVal` (basis for `DecidableEq`). -/
def beqJ : JVal → JVal → Bool
  | jnull, jnull => true
  | jbool a, jbool b => a == b
  | jnum a, jnum b => a == b
  | jstr a, jstr b => a == b
  | jarr a, jarr b => beqArr a b
  | jobj a, jobj b => beqObj a b
  | _, _ => false
/-- Elementwise equality of value lists. -/
def beqArr : List JVal → List JVal → Bool
  | [], [] => true
  | x :: xs, y :: ys => beqJ x y && beqArr xs ys
  | _, _ => false
/-- Elementwise equality of field lists. -/
def beqObj : List (String × JVal) → List (String × JVal) → Bool
  | [], [] => true
  | (k, v) :: xs, (k', v') :: ys => k == k' && beqJ v v' && beqObj xs ys
  | _, _ => false
end

mutual
theorem beqJ_iff : ∀ a b : JVal, beqJ a b = true ↔ a = b
  | jnull, b => by cases b <;> simp [beqJ]
  | jbool x, b => by cases b <;> simp [beqJ]
  | jnum x, b => by cases b <;> simp [beqJ]
  | jstr x, b => by cases b <;> simp [beqJ]
  | jarr xs, b => by
      cases b <;> simp [beqJ]
      exact beqArr_iff xs _
  | jobj xs, b => by
      cases b <;> simp [beqJ]
      exact beqObj_iff xs _
theorem beqArr_iff : ∀ a b : List JVal, beqArr a b = true ↔ a = b
  | [], b => by cases b <;> simp [beqArr]
  | x :: xs, b => by
      cases b with
      | nil => simp [beqArr]
      | cons y ys =>
        simp only [beqArr, Bool.and_eq_true, List.cons.injEq]
        rw [beqJ_iff, beqArr_iff]
theorem beqObj_iff : ∀ a b : List (String × JVal), beqObj a b = true ↔ a = b
  | [], b => by cases b <;> simp [beqObj]
  | (k, v) :: xs, b => by
      cases b with
      | nil => simp [beqObj]
      | cons y ys =>
        obtain ⟨k', v'⟩ := y
        simp only [beqObj, Bool.and_eq_true, beq_iff_eq, List.cons.injEq, Prod.mk.injEq]
        rw [beqJ_iff, beqObj_iff]
end

instance : DecidableEq JVal := fun a b => decidable_of_iff _ (beqJ_iff a b)

end JVal

open JVal

/-! ## Object (association list) primitives

JS property access/update on plain objects: lookup returns the first binding,
update rewrites the first binding in place, creation appends.  A missing
property (`undefined`) is `none`. -/

/-- `o[k]`: first binding for `k`, or `none` (JS `undefined`). -/
def objGet (o : List (String × JVal)) (k : String) : Option JVal :=
  match o with
  | [] => none
  | (k', v) :: rest => if k' = k then some v else objGet rest k

/-- `k in o`. -/
def objHas (o : List (String × JVal)) (k : String) : Bool :=
  match o with
  | [] => false
  | (k', _) :: rest => k' == k || objHas rest k

/-- `o[k] = v`: update in place if present (keeping the position), else append. -/
def objSet (o : List (String × JVal)) (k : String) (v : JVal) : List (String × JVal) :=
  match o with
  | [] => [(k, v)]
  | (k', v') :: rest => if k' = k then (k, v) :: rest else (k', v') :: objSet rest k v

/-- `delete o[k]` (JS objects have unique keys; dropping every binding). -/
def objDel (o : List (String × JVal)) (k : String) : List (String × JVal) :=
  o.filter (fun p => p.1 ≠ k)

/-- Property access through any value: `v?.k` / `v.k` (non-objects give `undefined`). -/
def jget (v : JVal) (k : String) : Option JVal :=
  match v with
  | jobj o => objGet o k
  | _ => none

/-! ## JS coercion helpers -/

/-- JS truthiness of a value. -/
def truthy : JVal → Bool
  | jnull => false
  | jbool b => b
  | jnum n => n != 0
  | jstr s => s != ""
  | jarr _ => true
  | jobj _ => true

/-- Truthiness of a possibly-missing value (`undefined` is falsy). -/
def truthyOpt : Option JVal → Bool
  | none => false
  | some v => truthy v

/-- `isObj` / `isPlainObject`: a non-null, non-array object. -/
def isObjJ : JVal → Bool
  | jobj _ => true
  | _ => false

/-- `Array.isArray`. -/
def isArrJ : JVal → Bool
  | jarr _ => true
  | _ => false

/-- Fields of a value that is known to be an object (else `[]`). -/
def fieldsOf : JVal → List (String × JVal)
  | jobj o => o
  | _ => []

/-- Elements of a value that is known to be an array (else `[]`). -/
def elemsOf : JVal → List JVal
  | jarr xs => xs
  | _ => []

mutual
/-- JS `String(v)` (template-literal conversion). Arrays join their elements
with `,`, where `null` elements convert to the empty string; plain objects
convert to `"[object Object]"`. -/
def jsToString : JVal → String
  | jnull => "null"
  | jbool true => "true"
  | jbool false => "false"
  | jnum n => toString n
  | jstr s => s
  | jarr xs => jsArrString xs
  | jobj _ => "[object Object]"
/-- `Array.prototype.toString`: elements joined by `,`, `null` as empty. -/
def jsArrString : List JVal → String
  | [] => ""
  | [x] => (match x with | jnull => "" | v => jsToString v)
  | x :: xs => (match x with | jnull => "" | v => jsToString v) ++ "," ++ jsArrString xs
end

/-- Whitespace recognised by JS `String.trim` / JSON (space, tab, LF, CR). -/
def isWsC (c : Char) : Bool := c == ' ' || c == '\t' || c == '\n' || c == '\r'

/-- `trim` on a character list: drop whitespace on both ends. -/
def trimL (l : List Char) : List Char :=
  ((l.dropWhile isWsC).reverse.dropWhile isWsC).reverse

/-- JS `String.prototype.trim`. -/
def trimS (s : String) : String := String.mk (trimL s.toList)

/-- `asStr(x)`: `''` for null/undefined, `String(x)` otherwise
(`update/storage/validate.js`). -/
def asStr : Option JVal → String
  | none => ""
  | some jnull => ""
  | some v => jsToString v

def isDigitC (c : Char) : Bool := '0' ≤ c && c ≤ '9'

/-- The value of a nonempty all-digit run, or `none`. -/
def digitRun? (l : List Char) : Option Nat :=
  match l with
  | [] => none
  | _ =>
    if l.all isDigitC then
      some (l.foldl (fun acc c => acc * 10 + (c.toNat - '0'.toNat)) 0)
    else none

/-- Model of JS `Number(s)` restricted to integer numerals: optional sign and
digits; the empty (or all-whitespace) string is `0`; anything else — including
fractional, exponent or hex forms, which denote non-integers or are outside
the integer model — is `none` (JS `NaN` or a non-integer). -/
def jsNumber? (s : String) : Option Int :=
  match trimL s.toList with
  | [] => some 0
  | '-' :: ds => (digitRun? ds).map (fun n => -(n : Int))
  | '+' :: ds => (digitRun? ds).map (fun n => (n : Int))
  | ds => (digitRun? ds).map (fun n => (n : Int))

/-- Remove every `.` and replace the first `,` by `.`
(the Brazilian-locale preprocessing in `asNum`). -/
def brDigits (l : List Char) : List Char :=
  match l with
  | [] => []
  | '.' :: rest => brDigits rest
  | ',' :: rest => '.' :: (rest.filter (fun c => c ≠ '.'))
  | c :: rest => c :: brDigits rest

/-- `asNum(x, dflt)` (`update/storage/validate.js`): finite numbers pass
through; strings are trimmed, de-dotted, comma-to-dot converted and fed to
`Number`; everything else is the default.  (Integer-valued results only, per
the model; a produced `.` makes the numeral non-integer, hence the default.) -/
def asNum (x : Option JVal) (dflt : Int) : Int :=
  match x with
  | some (jnum n) => n
  | some (jstr s) =>
    match jsNumber? (String.mk (brDigits (trimL s.toList))) with
    | some n => n
    | none => dflt
  | _ => dflt

/-- `asInt(x, dflt)` (`update/storage/validate.js`): `Math.trunc(asNum x)`,
the identity on integers. -/
def asInt (x : Option JVal) (dflt : Int) : Int := asNum x dflt

/-- Leading-integer parse: the model of `Number.parseInt(v, 10)` on strings
(optional sign, then the maximal leading digit run; no digits is `NaN`). -/
def parseIntLead (s : String) : Option Int :=
  match trimL s.toList with
  | '-' :: ds => (digitRun? (ds.takeWhile isDigitC)).map (fun n => -(n : Int))
  | '+' :: ds => (digitRun? (ds.takeWhile isDigitC)).map (fun n => (n : Int))
  | ds => (digitRun? (ds.takeWhile isDigitC)).map (fun n => (n : Int))

/-- `asInt` of `update/integrations/server_sync.js`: `Number.parseInt(v, 10)`
with a default, so integers pass through, strings parse by prefix, and
booleans/null/objects give the default. -/
def asIntJS (x : Option JVal) (dflt : Int) : Int :=
  match x with
  | some (jnum n) => n
  | some (jstr s) => match parseIntLead s with | some n => n | none => dflt
  | _ => dflt

/-- `normalizeCode` (`server_sync.js`): `String(code ?? "").trim()`. -/
def normalizeCode (code : Option JVal) : String :=
  match code with
  | none => ""
  | some jnull => ""
  | some v => trimS (jsToString v)

/-! ## JSON serialisation: `JSON.stringify(v, null, ind)`

`ind = 0` is the compact form (`JSON.stringify(v, null, 0)`, identical to
`JSON.stringify(v)`); `ind = 2` is the pretty form used by `exportDB`. -/

/-- Lowercase hex digit for `n < 16`. -/
def toHexDigit (n : Nat) : Char :=
  if n < 10 then Char.ofNat ('0'.toNat + n) else Char.ofNat ('a'.toNat + (n - 10))

/-- JSON escaping of one character, as `JSON.stringify` emits it. -/
def escapeChar (c : Char) : List Char :=
  if c = '"' then ['\\', '"']
  else if c = '\\' then ['\\', '\\']
  else if c = '\n' then ['\\', 'n']
  else if c = '\t' then ['\\', 't']
  else if c = '\r' then ['\\', 'r']
  else if c.toNat = 8 then ['\\', 'b']
  else if c.toNat = 12 then ['\\', 'f']
  else if c.toNat < 32 then
    ['\\', 'u', '0', '0', toHexDigit (c.toNat / 16 % 16), toHexDigit (c.toNat % 16)]
  else [c]

/-- A JSON string literal: quote, escaped body, quote. -/
def renderStrL (s : String) : List Char :=
  '"' :: (s.toList.flatMap escapeChar ++ ['"'])

/-- Pretty-mode line break plus indentation at depth `d` (`ind` spaces per
level); nothing in compact mode. -/
def nlIndent (ind d : Nat) : List Char :=
  if ind = 0 then [] else '\n' :: List.replicate (ind * d) ' '

/-- The space after `:` in pretty mode. -/
def colonPad (ind : Nat) : List Char :=
  if ind = 0 then [] else [' ']

mutual
/-- Serialise a value at depth `d` with `ind` spaces of indentation per level. -/
def renderV (ind d : Nat) : JVal → List Char
  | jnull => ['n', 'u', 'l', 'l']
  | jbool true => ['t', 'r', 'u', 'e']
  | jbool false => ['f', 'a', 'l', 's', 'e']
  | jnum n => (toString n).toList
  | jstr s => renderStrL s
  | jarr [] => ['[', ']']
  | jarr (x :: xs) =>
    '[' :: (nlIndent ind (d + 1) ++ renderV ind (d + 1) x ++ renderArrTail ind (d + 1) xs
      ++ nlIndent ind d ++ [']'])
  | jobj [] => ['{', '}']
  | jobj ((k, v) :: fs) =>
    '{' :: (nlIndent ind (d + 1) ++ renderStrL k ++ ':' :: (colonPad ind ++ renderV ind (d + 1) v)
      ++ renderObjTail ind (d + 1) fs ++ nlIndent ind d ++ ['}'])
/-- The remaining elements of a non-empty array, each preceded by `,`. -/
def renderArrTail (ind d : Nat) : List JVal → List Char
  | [] => []
  | x :: xs => ',' :: (nlIndent ind d ++ renderV ind d x ++ renderArrTail ind d xs)
/-- The remaining members of a non-empty object, each preceded by `,`. -/
def renderObjTail (ind d : Nat) : List (String × JVal) → List Char
  | [] => []
  | (k, v) :: fs =>
    ',' :: (nlIndent ind d ++ renderStrL k ++ ':' :: (colonPad ind ++ renderV ind d v)
      ++ renderObjTail ind d fs)
end

/-- `JSON.stringify(v, null, ind)`. -/
def stringify (ind : Nat) (v : JVal) : String := String.mk (renderV ind 0 v)

/-- `JSON.stringify(v)` — the compact serialisation. -/
def stringifyC (v : JVal) : String := stringify 0 v

/-! ## `checksum32` (`update/storage/validate.js`)

FNV-1a over the UTF-16 code units of the string, rendered as 8 lowercase hex
digits.  `Math.imul`/`^`/`>>> 0` arithmetic on 32-bit patterns is exactly
arithmetic modulo `2^32` on naturals. -/

/-- One FNV-1a round: `h = Math.imul(h ^ code, 16777619)` modulo `2^32`. -/
def fnvStep (h code : Nat) : Nat := ((h ^^^ code) * 16777619) % 4294967296

/-- The 32-bit FNV-1a state after absorbing a character list (seed
`2166136261`). -/
def checksumNat (l : List Char) : Nat :=
  l.foldl (fun h c => fnvStep h c.toNat) 2166136261

/-- `(h >>> 0).toString(16).padStart(8, '0')` for `h < 2^32`: exactly the
eight hex digits of `h`, most significant first. -/
def toHex8 (n : Nat) : String :=
  String.mk [toHexDigit (n / 16 ^ 7 % 16), toHexDigit (n / 16 ^ 6 % 16),
    toHexDigit (n / 16 ^ 5 % 16), toHexDigit (n / 16 ^ 4 % 16),
    toHexDigit (n / 16 ^ 3 % 16), toHexDigit (n / 16 ^ 2 % 16),
    toHexDigit (n / 16 % 16), toHexDigit (n % 16)]

/-- `checksum32(str)` (`update/storage/validate.js`). -/
def checksum32 (s : String) : String := toHex8 (checksumNat s.toList)

/-! ## The conflict-aware merge engine (`update/integrations/server_sync.js`)

`deepClone` (a JSON round-trip) is the identity on `JVal` and is therefore
not written. -/

/-- One recorded merge conflict (`report.conflicts` entries). -/
structure Conflict where
  path : String
  current : JVal
  incoming : JVal
  chosen : String
deriving DecidableEq, Inhabited

/-- The merge report: `{atIso, added, updated, conflicts, warnings}` where
`added`/`updated` are JS objects used as string-to-counter maps. -/
structure MergeReport where
  atIso : String
  added : List (String × Nat)
  updated : List (String × Nat)
  conflicts : List Conflict
  warnings : List String
deriving DecidableEq, Inhabited

/-- `m[k] = (m[k] || 0) + 1` on a counter object. -/
def bumpCounter (m : List (String × Nat)) (k : String) : List (String × Nat) :=
  match m with
  | [] => [(k, 1)]
  | (k', n) :: rest => if k' = k then (k', n + 1) :: rest else (k', n) :: bumpCounter rest k

/-- The first non-nullish (`??`) of the properties `ks` of `o`. -/
def firstNN (o : JVal) : List String → Option JVal
  | [] => none
  | k :: ks =>
    match jget o k with
    | some v => if v = jnull then firstNN o ks else some v
    | none => firstNN o ks

/-- The dedup key of `uniqById`: `String(id)` for a truthy `id ?? _id ?? uuid`,
else `JSON.stringify(it)`. -/
def uniqKey (it : JVal) : String :=
  let idv : Option JVal := if truthy it then firstNN it ["id", "_id", "uuid"] else none
  match idv with
  | some v => if truthy v then jsToString v else stringifyC it
  | none => stringifyC it

/-- The loop of `uniqById`, with the set of keys seen so far. -/
def uniqByIdL : List JVal → List String → List JVal
  | [], _ => []
  | it :: rest, seen =>
    let key := uniqKey it
    if key ∈ seen then uniqByIdL rest seen
    else it :: uniqByIdL rest (key :: seen)

/-- `uniqById(arr)` (`server_sync.js`): keep the first occurrence per key. -/
def uniqById (arr : List JVal) : List JVal := uniqByIdL arr []

mutual
/-- `mergeObjects(a, b, prefer, report, prefix)` (`server_sync.js`): walk the
keys of `b` over a copy of `a`; copy missing keys, union arrays via
`uniqById`, recurse into objects, and resolve differing primitives by
`prefer`, recording a conflict.  (Curried as `prefer`-first so the recursion
is structural over the nested value/list structure.) -/
def mergeObjectsGo (prefer : String) :
    List (String × JVal) → List (String × JVal) → MergeReport → String →
    List (String × JVal) × MergeReport
  | out, [], rep, _ => (out, rep)
  | out, (k, vb) :: rest, rep, pfx =>
    let p := if pfx = "" then k else pfx ++ "." ++ k
    if objHas out k then
      let va := (objGet out k).getD jnull
      if isArrJ va || isArrJ vb then
        mergeObjectsGo prefer (objSet out k (jarr (uniqById (elemsOf va ++ elemsOf vb))))
          rest rep pfx
      else if isObjJ va || isObjJ vb then
        let r := mergeObjectsVal prefer (fieldsOf va) vb rep p
        mergeObjectsGo prefer (objSet out k (jobj r.1)) rest r.2 pfx
      else if va ≠ vb then
        let out' := if prefer = "import" then objSet out k vb else out
        let rep' := { rep with
          conflicts := rep.conflicts ++
            [⟨p, va, vb, if prefer = "import" then "incoming" else "current"⟩] }
        mergeObjectsGo prefer out' rest rep' pfx
      else
        mergeObjectsGo prefer out rest rep pfx
    else
      mergeObjectsGo prefer (objSet out k vb) rest rep pfx
/-- The nested call `mergeObjects(isPlainObject(va) ? va : {},
isPlainObject(vb) ? vb : {}, …)`: merging against a non-object `vb` copies
nothing into the clone of `va`, so that case returns it unchanged. -/
def mergeObjectsVal (prefer : String) (va' : List (String × JVal)) :
    JVal → MergeReport → String → List (String × JVal) × MergeReport
  | jobj bo, rep, p => mergeObjectsGo prefer va' bo rep p
  | _, rep, _ => (va', rep)
end

/-- `mergeObjects` with the source's argument order. -/
def mergeObjects (out b : List (String × JVal)) (prefer : String)
    (rep : MergeReport) (pfx : String) : List (String × JVal) × MergeReport :=
  mergeObjectsGo prefer out b rep pfx

/-- `norm` in `mergeEstoque`: truthy values of `typeof "object"` pass. -/
def normItem (x : JVal) : Option JVal :=
  if truthy x && (isObjJ x || isArrJ x) then some x else none

/-- The product code of a stock item:
`normalizeCode(o.cod ?? o.codigo ?? o.code ?? o.sku)`. -/
def itemCod (o : JVal) : String :=
  normalizeCode (firstNN o ["cod", "codigo", "code", "sku"])

/-- Phase 1 of `mergeEstoque`: load the current items into the code-keyed map
(silently skipping non-objects and items without a code). -/
def loadEstoqueA (m : List (String × JVal)) : List JVal → List (String × JVal)
  | [] => m
  | it :: rest =>
    match normItem it with
    | none => loadEstoqueA m rest
    | some o =>
      let cod := itemCod o
      if cod = "" then loadEstoqueA m rest
      else loadEstoqueA (objSet m cod o) rest

/-- The warning text pushed for an incoming stock item without a code. -/
def estoqueNoCodWarning : String := "Item importado no estoque sem código (cod). Ignorado."

/-- Phase 2 of `mergeEstoque`: fold the incoming items into the map — warn and
drop code-less items, add new codes, and on collision merge the fields
generically then overwrite `qtd` by the quantity strategy. -/
def mergeEstoqueB (sumStockQty : Bool) (prefer : String) :
    List (String × JVal) → MergeReport → List JVal → List (String × JVal) × MergeReport
  | m, rep, [] => (m, rep)
  | m, rep, it :: rest =>
    match normItem it with
    | none => mergeEstoqueB sumStockQty prefer m rep rest
    | some o =>
      let cod := itemCod o
      if cod = "" then
        mergeEstoqueB sumStockQty prefer m
          { rep with warnings := rep.warnings ++ [estoqueNoCodWarning] } rest
      else if ¬ objHas m cod then
        mergeEstoqueB sumStockQty prefer
          (objSet m cod (jobj (objSet (fieldsOf o) "cod" (jstr cod))))
          { rep with added := bumpCounter rep.added "estoque" } rest
      else
        let cur := (objGet m cod).getD jnull
        let curQtd := asIntJS (some ((firstNN cur ["qtd", "quantidade"]).getD (jnum 0))) 0
        let incQtd := asIntJS (some ((firstNN o ["qtd", "quantidade"]).getD (jnum 0))) 0
        let r := mergeObjects (fieldsOf cur) (fieldsOf o) prefer rep ("estoque:" ++ cod)
        let qtd : Int := if sumStockQty then curQtd + incQtd
          else if prefer = "import" then incQtd else curQtd
        let merged := objSet r.1 "qtd" (jnum qtd)
        mergeEstoqueB sumStockQty prefer (objSet m cod (jobj merged))
          { r.2 with updated := bumpCounter r.2.updated "estoque" } rest

/-- `mergeEstoque(arrA, arrB, {sumStockQty, prefer, report})`
(`server_sync.js`): the code-keyed union of both stock lists. -/
def mergeEstoque (arrA arrB : List JVal) (sumStockQty : Bool) (prefer : String)
    (rep : MergeReport) : List JVal × MergeReport :=
  let r := mergeEstoqueB sumStockQty prefer (loadEstoqueA [] arrA) rep arrB
  (r.1.map (·.2), r.2)

/-- Options of `mergeDBSmart` (`prefer` defaults to `"current"`,
`sumStockQty` to `true`). -/
structure MergeOptions where
  prefer : String := "current"
  sumStockQty : Bool := true

/-- The key loop of `mergeDBSmart` over the keys of `b`. -/
def mergeTopKeys (prefer : String) (sumStockQty : Bool) :
    List (String × JVal) → List (String × JVal) → MergeReport →
    List (String × JVal) × MergeReport
  | out, [], rep => (out, rep)
  | out, (k, vb) :: rest, rep =>
    if ¬ objHas out k then
      mergeTopKeys prefer sumStockQty (objSet out k vb) rest
        { rep with added := bumpCounter rep.added k }
    else
      let va := (objGet out k).getD jnull
      if k = "estoque" && (isArrJ va || isArrJ vb) then
        let r := mergeEstoque (elemsOf va) (elemsOf vb) sumStockQty prefer rep
        mergeTopKeys prefer sumStockQty (objSet out k (jarr r.1)) rest r.2
      else if isArrJ va || isArrJ vb then
        mergeTopKeys prefer sumStockQty
          (objSet out k (jarr (uniqById (elemsOf va ++ elemsOf vb)))) rest rep
      else if isObjJ va || isObjJ vb then
        let r := mergeObjects (fieldsOf va) (fieldsOf vb) prefer rep ("obj:" ++ k)
        mergeTopKeys prefer sumStockQty (objSet out k (jobj r.1)) rest r.2
      else if va ≠ vb then
        let out' := if prefer = "import" then objSet out k vb else out
        mergeTopKeys prefer sumStockQty out' rest
          { rep with conflicts := rep.conflicts ++
            [⟨k, va, vb, if prefer = "import" then "incoming" else "current"⟩] }
      else
        mergeTopKeys prefer sumStockQty out rest rep

/-- `mergeDBSmart(currentDB, incomingDB, options)` (`server_sync.js`), with
the call time `t` standing for `nowIso()`. -/
def mergeDBSmart (t : String) (currentDB incomingDB : JVal)
    (options : MergeOptions := {}) : JVal × MergeReport :=
  let prefer := if options.prefer = "import" then "import" else "current"
  let sumStockQty := options.sumStockQty
  let a := if isObjJ currentDB then fieldsOf currentDB else []
  let b := if isObjJ incomingDB then fieldsOf incomingDB else []
  let rep : MergeReport := ⟨t, [], [], [], []⟩
  let r := mergeTopKeys prefer sumStockQty a b rep
  let out := r.1
  let out := if isObjJ ((objGet out "meta").getD jnull)
    then objSet out "meta" (jobj (objSet (fieldsOf ((objGet out "meta").getD jnull)) "updatedAt" (jstr t)))
    else out
  let out := if isObjJ ((objGet out "_meta").getD jnull)
    then objSet out "_meta" (jobj (objSet (fieldsOf ((objGet out "_meta").getD jnull)) "savedAt" (jstr t)))
    else out
  (jobj out, r.2)

/-! ## Schema (`update/storage/schema.js`) and normalisation
(`update/storage/validate.js`) -/

/-- `schema.SCHEMA_VERSION`. -/
def SCHEMA_VERSION : Int := 1

/-- `defaultDB()` (`update/storage/schema.js`) created at time `t`. -/
def defaultDB (t : String) : JVal :=
  jobj [("schemaVersion", jnum SCHEMA_VERSION),
    ("meta", jobj [("createdAt", jstr t), ("updatedAt", jstr t)]),
    ("users", jarr []),
    ("settings", jobj []),
    ("estoque", jarr []),
    ("vendas", jarr []),
    ("caixa", jobj [("aberto", jbool false), ("movimentos", jarr []), ("aberturas", jarr [])]),
    ("devedores", jarr []),
    ("auditLog", jarr [])]

/-- `isObj(x) ? x : {}` on a property value. -/
def objOrEmpty (x : Option JVal) : List (String × JVal) :=
  match x with
  | some (jobj f) => f
  | _ => []

/-- `Array.isArray(x) ? x : []` on a property value. -/
def arrOrEmpty (x : Option JVal) : List JVal :=
  match x with
  | some (jarr xs) => xs
  | _ => []

/-- The per-product body of the `estoque` loop in `normalizeDB`: coerce the
typed fields, then clamp negatives to zero, collecting the warnings in
source order.  Non-objects are left untouched. -/
def normProduct (p : JVal) : JVal × List String :=
  match p with
  | jobj o =>
    let cod := trimS (asStr (objGet o "cod"))
    let nome := trimS (asStr (objGet o "nome"))
    let qtd0 := asInt (objGet o "qtd") 0
    let mn := asInt (objGet o "min") 0
    let custo0 := asInt (objGet o "custo_c") 0
    let preco0 := asInt (objGet o "preco_c") 0
    let lucro := asNum (objGet o "lucro_p") 0
    let codDisp := if cod = "" then "(sem cod)" else cod
    let w :=
      (if cod = "" ∧ nome ≠ "" then [s!"Produto sem código: \"{nome}\""] else [])
      ++ (if nome = "" ∧ cod ≠ "" then [s!"Produto sem nome: código {cod}"] else [])
      ++ (if qtd0 < 0 then [s!"Estoque negativo corrigido em {codDisp}"] else [])
      ++ (if preco0 < 0 then [s!"Preço negativo corrigido em {codDisp}"] else [])
      ++ (if custo0 < 0 then [s!"Custo negativo corrigido em {codDisp}"] else [])
    let o := objSet o "cod" (jstr cod)
    let o := objSet o "nome" (jstr nome)
    let o := objSet o "qtd" (jnum (if qtd0 < 0 then 0 else qtd0))
    let o := objSet o "min" (jnum mn)
    let o := objSet o "custo_c" (jnum (if custo0 < 0 then 0 else custo0))
    let o := objSet o "preco_c" (jnum (if preco0 < 0 then 0 else preco0))
    let o := objSet o "lucro_p" (jnum lucro)
    (jobj o, w)
  | _ => (p, [])

/-- The per-item body of the `v.itens` loop in `normalizeDB`. -/
def normSaleItem (i : JVal) : JVal :=
  match i with
  | jobj o =>
    let o := objSet o "cod" (jstr (trimS (asStr (objGet o "cod"))))
    let o := objSet o "nome" (jstr (trimS (asStr (objGet o "nome"))))
    let o := objSet o "qtd" (jnum (asNum (objGet o "qtd") 0))
    let o := objSet o "preco_c" (jnum (asInt (objGet o "preco_c") 0))
    jobj o
  | _ => i

/-- The per-sale body of the `vendas` loop in `normalizeDB`.  A falsy trimmed
id keeps the original binding (JS assigns `undefined` back when the property
is absent, which is serialisation-equivalent to leaving it absent). -/
def normSale (t : String) (v : JVal) : JVal × List String :=
  match v with
  | jobj o =>
    let idTrim := trimS (asStr (objGet o "id"))
    let o := if idTrim ≠ "" then objSet o "id" (jstr idTrim)
      else match objGet o "id" with
        | some old => objSet o "id" old
        | none => o
    let o := objSet o "dataIso"
      (if truthyOpt (objGet o "dataIso") then (objGet o "dataIso").getD jnull else jstr t)
    let o := objSet o "itens" (jarr ((arrOrEmpty (objGet o "itens")).map normSaleItem))
    let sub := asInt (objGet o "subtotal_c") 0
    let o := objSet o "subtotal_c" (jnum sub)
    let desc := asInt (objGet o "desconto_c") 0
    let o := objSet o "desconto_c" (jnum desc)
    let tot0 := asInt (objGet o "total_c") (max 0 (sub - desc))
    let idDisp := if truthyOpt (objGet o "id") then jsToString ((objGet o "id").getD jnull)
      else "(sem id)"
    let w := if tot0 < 0 then [s!"Venda {idDisp} com total negativo corrigido."] else []
    let o := objSet o "total_c" (jnum (if tot0 < 0 then 0 else tot0))
    (jobj o, w)
  | _ => (v, [])

/-- `normalizeDB(db)` (`update/storage/validate.js`) with `nowIso()` fixed to
`t`.  Returns the normalised database and the report's warning list. -/
def normalizeDB (t : String) (db : JVal) : JVal × List String :=
  match db with
  | jobj o =>
    let o := objSet o "schemaVersion" (jnum (asInt (objGet o "schemaVersion") SCHEMA_VERSION))
    let meta := objOrEmpty (objGet o "meta")
    let meta := objSet meta "createdAt"
      (if truthyOpt (objGet meta "createdAt") then (objGet meta "createdAt").getD jnull
       else jstr t)
    let meta := objSet meta "updatedAt" (jstr t)
    let o := objSet o "meta" (jobj meta)
    let o := objSet o "users" (jarr (arrOrEmpty (objGet o "users")))
    let o := objSet o "settings" (jobj (objOrEmpty (objGet o "settings")))
    let o := objSet o "estoque" (jarr (arrOrEmpty (objGet o "estoque")))
    let o := objSet o "vendas" (jarr (arrOrEmpty (objGet o "vendas")))
    let caixa := match objGet o "caixa" with
      | some (jobj f) => f
      | _ => [("aberto", jbool false), ("movimentos", jarr []), ("aberturas", jarr [])]
    let caixa := objSet caixa "aberto" (jbool (truthyOpt (objGet caixa "aberto")))
    let caixa := objSet caixa "movimentos" (jarr (arrOrEmpty (objGet caixa "movimentos")))
    let caixa := objSet caixa "aberturas" (jarr (arrOrEmpty (objGet caixa "aberturas")))
    let o := objSet o "caixa" (jobj caixa)
    let o := objSet o "devedores" (jarr (arrOrEmpty (objGet o "devedores")))
    let o := objSet o "auditLog" (jarr (arrOrEmpty (objGet o "auditLog")))
    let prodResults := (arrOrEmpty (objGet o "estoque")).map normProduct
    let o := objSet o "estoque" (jarr (prodResults.map (·.1)))
    let saleResults := (arrOrEmpty (objGet o "vendas")).map (normSale t)
    let o := objSet o "vendas" (jarr (saleResults.map (·.1)))
    (jobj o, (prodResults.map (·.2)).flatten ++ (saleResults.map (·.2)).flatten)
  | _ => (defaultDB t, ["DB inválido: substituído por defaults."])

/-! ## `JSON.parse` model

A fuel-indexed recursive-descent parser over the character list.  It accepts
everything `stringify` emits (both compact and pretty) and fails with `none`
where `JSON.parse` would throw.  (Engine-specific error message texts are not
modelled; `parseJSON` is `none` exactly where `JSON.parse` throws.) -/

/-- Drop leading JSON whitespace. -/
def skipWs : List Char → List Char
  | c :: cs => if isWsC c then skipWs cs else c :: cs
  | [] => []

/-- Value of one hex digit. -/
def hexVal (c : Char) : Option Nat :=
  let n := c.toNat
  if 48 ≤ n && n ≤ 57 then some (n - 48)
  else if 97 ≤ n && n ≤ 102 then some (n - 87)
  else if 65 ≤ n && n ≤ 70 then some (n - 55)
  else none

/-- String body after the opening quote: literal characters and escapes up to
the closing quote. -/
def parseStrBody (acc : List Char) : List Char → Option (String × List Char)
  | '"' :: rest => some (String.mk acc.reverse, rest)
  | '\\' :: 'u' :: a :: b :: c :: d :: rest =>
    (match hexVal a, hexVal b, hexVal c, hexVal d with
     | some va, some vb, some vc, some vd =>
       parseStrBody (Char.ofNat (((va * 16 + vb) * 16 + vc) * 16 + vd) :: acc) rest
     | _, _, _, _ => none)
  | '\\' :: e :: rest =>
    (match e with
     | '"' => parseStrBody ('"' :: acc) rest
     | '\\' => parseStrBody ('\\' :: acc) rest
     | '/' => parseStrBody ('/' :: acc) rest
     | 'n' => parseStrBody ('\n' :: acc) rest
     | 't' => parseStrBody ('\t' :: acc) rest
     | 'r' => parseStrBody ('\r' :: acc) rest
     | 'b' => parseStrBody (Char.ofNat 8 :: acc) rest
     | 'f' => parseStrBody (Char.ofNat 12 :: acc) rest
     | _ => none)
  | c :: rest => parseStrBody (c :: acc) rest
  | [] => none

/-- An integer numeral: optional minus sign then a digit run. -/
def parseNum (cs : List Char) : Option (Int × List Char) :=
  match cs with
  | '-' :: rest =>
    let ds := rest.takeWhile isDigitC
    (digitRun? ds).map (fun n => (-(n : Int), rest.drop ds.length))
  | _ =>
    let ds := cs.takeWhile isDigitC
    (digitRun? ds).map (fun n => ((n : Int), cs.drop ds.length))

mutual
/-- Parse one JSON value (after skipping leading whitespace). -/
def parseVal : Nat → List Char → Option (JVal × List Char)
  | 0, _ => none
  | fuel + 1, cs =>
    match skipWs cs with
    | 'n' :: 'u' :: 'l' :: 'l' :: r => some (jnull, r)
    | 't' :: 'r' :: 'u' :: 'e' :: r => some (jbool true, r)
    | 'f' :: 'a' :: 'l' :: 's' :: 'e' :: r => some (jbool false, r)
    | '"' :: r => (parseStrBody [] r).map (fun p => (jstr p.1, p.2))
    | '[' :: r =>
      (match skipWs r with
       | ']' :: r' => some (jarr [], r')
       | r' => (parseElems fuel r').map (fun p => (jarr p.1, p.2)))
    | '{' :: r =>
      (match skipWs r with
       | '}' :: r' => some (jobj [], r')
       | r' => (parseMembers fuel r').map (fun p => (jobj p.1, p.2)))
    | c :: rest =>
      if c = '-' || isDigitC c then (parseNum (c :: rest)).map (fun p => (jnum p.1, p.2))
      else none
    | [] => none
/-- One or more comma-separated array elements, through the closing `]`. -/
def parseElems : Nat → List Char → Option (List JVal × List Char)
  | 0, _ => none
  | fuel + 1, cs =>
    match parseVal fuel cs with
    | none => none
    | some (v, r) =>
      match skipWs r with
      | ',' :: r' =>
        (match parseElems fuel r' with
         | some (vs, r'') => some (v :: vs, r'')
         | none => none)
      | ']' :: r' => some ([v], r')
      | _ => none
/-- One or more comma-separated object members, through the closing `}`. -/
def parseMembers : Nat → List Char → Option (List (String × JVal) × List Char)
  | 0, _ => none
  | fuel + 1, cs =>
    match skipWs cs with
    | '"' :: r =>
      (match parseStrBody [] r with
       | none => none
       | some (key, r1) =>
         match skipWs r1 with
         | ':' :: r2 =>
           (match parseVal fuel r2 with
            | none => none
            | some (v, r3) =>
              match skipWs r3 with
              | ',' :: r4 =>
                (match parseMembers fuel r4 with
                 | some (ms, r5) => some ((key, v) :: ms, r5)
                 | none => none)
              | '}' :: r4 => some ([(key, v)], r4)
              | _ => none)
         | _ => none)
    | _ => none
end

/-- `JSON.parse(s)`: parse one value and require only whitespace after it. -/
def parseJSON (s : String) : Option JVal :=
  match parseVal (s.toList.length + 1) s.toList with
  | none => none
  | some (v, r) => if skipWs r = [] then some v else none

/-! ## Backup export / import preview (`update/storage/backup.js`) -/

/-- The export payload before the checksum is injected:
`{__meta: {type, schemaVersion, exportedAt}, db}`. -/
def exportPayloadNoCk (t : String) (db : JVal) : JVal :=
  jobj [("__meta", jobj [("type", jstr "erp_backup"),
    ("schemaVersion",
      if truthyOpt (jget db "schemaVersion") then (jget db "schemaVersion").getD jnull
      else jnum SCHEMA_VERSION),
    ("exportedAt", jstr t)]),
    ("db", db)]

/-- The payload after `payload.__meta.checksum32 = checksum` (the property is
created last, so it sits at the end of `__meta`). -/
def exportPayload (t : String) (db : JVal) : JVal :=
  jobj [("__meta", jobj [("type", jstr "erp_backup"),
    ("schemaVersion",
      if truthyOpt (jget db "schemaVersion") then (jget db "schemaVersion").getD jnull
      else jnum SCHEMA_VERSION),
    ("exportedAt", jstr t),
    ("checksum32", jstr (checksum32 (stringifyC (exportPayloadNoCk t db))))]),
    ("db", db)]

/-- `exportDB(db, {pretty})` (`update/storage/backup.js`) at export time `t`:
checksum the compact serialisation without the checksum field, inject it,
serialise (pretty by default). -/
def exportDB (t : String) (db : JVal) (pretty : Bool := true) : String :=
  stringify (if pretty then 2 else 0) (exportPayload t db)

/-- The collection-count summary of `previewImport`. -/
structure PreviewSummary where
  schemaVersion : JVal
  estoque : Nat
  vendas : Nat
  devedores : Nat
  auditLog : Nat
  exportedAt : JVal
deriving DecidableEq, Inhabited

/-- Result shape of `previewImport` (`{ok, warnings, summary}`). -/
structure PreviewResult where
  ok : Bool
  warnings : List String
  summary : Option PreviewSummary
deriving DecidableEq, Inhabited

/-- The checksum-mismatch warning text of `previewImport`. -/
def checksumMismatchWarning : String :=
  "Checksum não confere (arquivo pode ter sido alterado)."

/-- The missing/unknown-meta warning text of `previewImport`. -/
def metaMissingWarning : String := "Meta ausente ou tipo desconhecido."

/-- Stand-in for the engine-specific `JSON.parse` exception message. -/
def parseErrorMessage : String := "JSON.parse: entrada inválida"

/-- `previewImport(jsonString)` (`update/storage/backup.js`): parse without
mutating state, require a `db` object, warn on missing meta, recompute the
checksum over the clone with `checksum32` deleted and warn on mismatch,
return collection counts. -/
def previewImport (jsonString : String) : PreviewResult :=
  match parseJSON jsonString with
  | none => { ok := false, warnings := [parseErrorMessage], summary := none }
  | some obj =>
    if ¬ (isObjJ obj || isArrJ obj) then
      { ok := false, warnings := ["Arquivo não é JSON válido."], summary := none }
    else
      let dbv := (jget obj "db").getD jnull
      if ¬ (truthyOpt (jget obj "db") && (isObjJ dbv || isArrJ dbv)) then
        { ok := false, warnings := ["Arquivo não contém campo db."], summary := none }
      else
        let metaOpt := jget obj "__meta"
        let w1 :=
          if ¬ (truthyOpt metaOpt && jget (metaOpt.getD jnull) "type" = some (jstr "erp_backup"))
          then [metaMissingWarning] else []
        let ckOpt := jget (metaOpt.getD jnull) "checksum32"
        let w2 :=
          if truthyOpt metaOpt && truthyOpt ckOpt then
            let clone :=
              match obj with
              | jobj o =>
                (match objGet o "__meta" with
                 | some (jobj mf) => jobj (objSet o "__meta" (jobj (objDel mf "checksum32")))
                 | _ => obj)
              | _ => obj
            let cs := checksum32 (stringifyC clone)
            (match ckOpt.getD jnull with
             | jstr s => if cs ≠ s then [checksumMismatchWarning] else []
             | _ => [checksumMismatchWarning])
          else []
        { ok := true, warnings := w1 ++ w2,
          summary := some {
            schemaVersion := (jget dbv "schemaVersion").getD jnull,
            estoque := (arrOrEmpty (jget dbv "estoque")).length,
            vendas := (arrOrEmpty (jget dbv "vendas")).length,
            devedores := (arrOrEmpty (jget dbv "devedores")).length,
            auditLog := (arrOrEmpty (jget dbv "auditLog")).length,
            exportedAt :=
              if truthyOpt (jget (metaOpt.getD jnull) "exportedAt")
              then (jget (metaOpt.getD jnull) "exportedAt").getD jnull else jnull } }

/-! ## `localStorage` model and the snapshot ring -/

/-- Association update on the string store (same discipline as `objSet`). -/
def kvSet (m : List (String × String)) (k v : String) : List (String × String) :=
  match m with
  | [] => [(k, v)]
  | (k', v') :: rest => if k' = k then (k, v) :: rest else (k', v') :: kvSet rest k v

/-- `localStorage` plus a failure-injection point: `failAfter = some k` makes
the `(k+1)`-th `setItem` call throw `failMsg` (storage writes, e.g. on quota
exhaustion, are the throwing primitive of the save path). -/
structure StorageEnv where
  items : List (String × String)
  failAfter : Option Nat := none
  failMsg : String := "QuotaExceededError"
deriving DecidableEq, Inhabited

/-- `localStorage.getItem`. -/
def sgetItem (env : StorageEnv) (k : String) : Option String :=
  (env.items.find? (fun p => p.1 == k)).map (·.2)

/-- `localStorage.setItem`: throws when the injected failure triggers,
otherwise writes (counting down the injection point). -/
def ssetItem (env : StorageEnv) (k v : String) : Except String StorageEnv :=
  match env.failAfter with
  | some 0 => .error env.failMsg
  | some (n + 1) => .ok { env with items := kvSet env.items k v, failAfter := some n }
  | none => .ok { env with items := kvSet env.items k v }

/-- `localStorage.removeItem` (never throws). -/
def sremoveItem (env : StorageEnv) (k : String) : StorageEnv :=
  { env with items := env.items.filter (fun p => p.1 ≠ k) }

/-- The derived snapshot key `<key>__snapshots` (`backup.js`). -/
def snapKey (storageKey : String) : String := storageKey ++ "__snapshots"

/-- `loadSnapshots` (`backup.js`): the stored list if it parses to an array,
else `[]`. -/
def loadSnapshots (env : StorageEnv) (storageKey : String) : List JVal :=
  match sgetItem env (snapKey storageKey) with
  | none => []
  | some raw =>
    match parseJSON raw with
    | some (jarr xs) => xs
    | _ => []

/-- The snapshot record `{id, at, schemaVersion, counts, data}` pushed by
`createSnapshot` (`backup.js`). -/
def mkSnapshot (id t : String) (db : JVal) : JVal :=
  jobj [("id", jstr id), ("at", jstr t),
    ("schemaVersion",
      if truthyOpt (jget db "schemaVersion") then (jget db "schemaVersion").getD jnull
      else jnum SCHEMA_VERSION),
    ("counts", jobj [("estoque", jnum ((arrOrEmpty (jget db "estoque")).length : Int)),
      ("vendas", jnum ((arrOrEmpty (jget db "vendas")).length : Int))]),
    ("data", db)]

/-- The list discipline of `createSnapshot`: `unshift` the new snapshot then
`pop` from the end while over the cap — i.e. keep the first `maxSnapshots`. -/
def snapshotList (snaps : List JVal) (snap : JVal) (maxSnapshots : Nat) : List JVal :=
  (snap :: snaps).take maxSnapshots

/-- `createSnapshot(storageKey, db, {maxSnapshots})` (`backup.js`) with the
generated id and `nowIso()` explicit: load, prepend, cap, store. -/
def createSnapshot (env : StorageEnv) (storageKey : String) (db : JVal)
    (maxSnapshots : Nat) (id t : String) : Except String (String × StorageEnv) :=
  let snaps := loadSnapshots env storageKey
  let arr := snapshotList snaps (mkSnapshot id t db) maxSnapshots
  match ssetItem env (snapKey storageKey) (stringifyC (jarr arr)) with
  | .ok env' => .ok (id, env')
  | .error e => .error e

/-! ## Persistence manager (`update/storage/db_core.js`) -/

/-- The recovery flag `_recovery`. -/
structure Recovery where
  active : Bool
  reason : String
  details : Option String
  since : Option String
deriving DecidableEq, Inhabited

/-- Options of `safeSave`. -/
structure SaveOpts where
  forceSnapshot : Bool := false
  skipNormalize : Bool := false
deriving DecidableEq, Inhabited

/-- Result shape of `safeSave`. -/
structure SaveResult where
  ok : Bool
  warnings : List String
  snapshotCreated : Bool
deriving DecidableEq, Inhabited

/-- The module state of `db_core.js` (`_cfg`, `_lastSnapshotAt`, `_recovery`,
and the `normalizeDB.lastReport.warnings` global that `safeSave` reads). -/
structure DbCoreState where
  storageKey : String := "ERP_DB_INTEGRADO"
  maxSnapshots : Nat := 20
  cooldownMs : Int := 3000
  lastSnapshotAt : Int := 0
  recovery : Recovery := ⟨false, "", none, none⟩
  lastNormWarnings : List String := []
deriving DecidableEq, Inhabited

/-- `safeSave(db, {forceSnapshot, skipNormalize})` (`db_core.js`, the save
path) at wall time `t`/`now` with `snapId` the id a due snapshot would get:
normalise unless skipped, write through `<key>__tmp` then copy to the key,
snapshot when forced or the cooldown elapsed.  The `catch` boundary turns any
storage throw into recovery mode with reason `storage_error` and an
`ok:false` result carrying the message; the function itself is total. -/
def safeSave (st : DbCoreState) (env : StorageEnv) (db : JVal) (opts : SaveOpts)
    (t : String) (now : Int) (snapId : String) :
    SaveResult × DbCoreState × StorageEnv :=
  let norm := normalizeDB t db
  let fixed := if opts.skipNormalize then db else norm.1
  let lastW := if opts.skipNormalize then st.lastNormWarnings else norm.2
  let tmpKey := st.storageKey ++ "__tmp"
  let attempt : Except (String × StorageEnv) (StorageEnv × Bool × Int) :=
    match ssetItem env tmpKey (stringifyC fixed) with
    | .error e => .error (e, env)
    | .ok env1 =>
      match ssetItem env1 st.storageKey ((sgetItem env1 tmpKey).getD "null") with
      | .error e => .error (e, env1)
      | .ok env2 =>
        let env3 := sremoveItem env2 tmpKey
        if opts.forceSnapshot || now - st.lastSnapshotAt ≥ st.cooldownMs then
          match createSnapshot env3 st.storageKey fixed st.maxSnapshots snapId t with
          | .error e => .error (e, env3)
          | .ok r => .ok (r.2, true, now)
        else .ok (env3, false, st.lastSnapshotAt)
  match attempt with
  | .ok (env', snapCreated, lastAt) =>
    ({ ok := true, warnings := lastW, snapshotCreated := snapCreated },
     { st with lastSnapshotAt := lastAt, lastNormWarnings := lastW }, env')
  | .error (msg, envAt) =>
    ({ ok := false, warnings := [msg], snapshotCreated := false },
     { st with
       recovery := { active := true, reason := "storage_error",
                     details := some msg, since := some t },
       lastNormWarnings := lastW }, envAt)

/-! ## Typed domain layer

The ledger modules (`ops_stock_events.js`, `ops_cashier.js`,
`ops_sales_refund.js`) operate on databases that `normalizeDB` keeps
well-typed, so they are embedded over typed records.  `dbCore.get()` parses a
fresh copy from storage and normalises it; `dbCore.safeSave(db)` normalises
and persists — on the typed representation normalisation is the clamping pass
`normalizeDBT` below, and the fresh-copy-per-`get` discipline is value
passing.  The ambient `window.CoreUsers` actor/audit lookups are outside the
core (absent browser globals), i.e. `user = null` and auditing is a no-op;
movement `meta` payloads are likewise not modelled (no claim reads them).
`generateId` is modelled by a threaded counter `gen`, `nowIso()` by the
timestamp parameter `t`. -/

/-- A product of `estoque` (typed). -/
structure Product where
  cod : String
  nome : String := ""
  qtd : Int := 0
  min : Int := 0
  custo_c : Int := 0
  preco_c : Int := 0
  lucro_p : Int := 0
deriving DecidableEq, Inhabited

/-- A sale line item (typed). -/
structure SaleItem where
  cod : String
  nome : String := ""
  qtd : Int := 0
  preco_c : Int := 0
deriving DecidableEq, Inhabited

/-- A sale (typed). -/
structure Sale where
  id : String
  dataIso : String := ""
  itens : List SaleItem := []
  subtotal_c : Int := 0
  desconto_c : Int := 0
  total_c : Int := 0
  status : String := "ativa"
  cancelReason : String := ""
  canceledAtIso : Option String := none
deriving DecidableEq, Inhabited

/-- A stock-movement ledger entry (typed; `user`/`meta` not modelled). -/
structure StockMovement where
  id : String
  atIso : String
  type : String
  productCod : String
  qtyDelta : Int
  reason : String
deriving DecidableEq, Inhabited

/-- A cash movement inside a session (typed; `meta` not modelled). -/
structure CashMovement where
  id : String
  atIso : String
  type : String
  amount_c : Int
deriving DecidableEq, Inhabited

/-- A cash session (typed; `openedBy`/`closedBy` not modelled). -/
structure CashSession where
  id : String
  openedAtIso : String := ""
  closedAtIso : Option String := none
  initial_c : Int := 0
  expected_c : Int := 0
  counted_c : Option Int := none
  diff_c : Option Int := none
  note : String := ""
  movements : List CashMovement := []
deriving DecidableEq, Inhabited

/-- A sale-void record (typed; `createdBy` not modelled). -/
structure SaleVoid where
  id : String
  atIso : String
  saleId : String
  reason : String
  stockMovementsCreated : List String
deriving DecidableEq, Inhabited

/-- The cash-register pointer (`db.caixa`). -/
structure Caixa where
  aberto : Bool := false
  currentSessionId : Option String := none
deriving DecidableEq, Inhabited

/-- The typed database root. -/
structure DB where
  estoque : List Product := []
  vendas : List Sale := []
  stockMovements : List StockMovement := []
  saleVoids : List SaleVoid := []
  cashSessions : List CashSession := []
  caixa : Caixa := {}
deriving DecidableEq, Inhabited

/-- `normalizeDB` restricted to a typed product: trim the name fields and
clamp negative quantities and prices to zero. -/
def normalizeProductT (p : Product) : Product :=
  { p with
    cod := trimS p.cod
    nome := trimS p.nome
    qtd := (if p.qtd < 0 then 0 else p.qtd)
    custo_c := (if p.custo_c < 0 then 0 else p.custo_c)
    preco_c := (if p.preco_c < 0 then 0 else p.preco_c) }

/-- `normalizeDB` restricted to a typed sale item. -/
def normalizeSaleItemT (i : SaleItem) : SaleItem :=
  { i with cod := trimS i.cod, nome := trimS i.nome }

/-- `normalizeDB` restricted to a typed sale (`t` fills an empty `dataIso`;
the id keeps its original value when it trims to empty). -/
def normalizeSaleT (t : String) (v : Sale) : Sale :=
  { v with
    id := (if trimS v.id ≠ "" then trimS v.id else v.id),
    dataIso := (if v.dataIso ≠ "" then v.dataIso else t),
    itens := v.itens.map normalizeSaleItemT,
    total_c := (if v.total_c < 0 then 0 else v.total_c) }

/-- `normalizeDB` on a typed database: the shape fixes are identities here,
leaving the estoque/vendas field passes (the unknown-to-`normalizeDB`
collections `stockMovements`, `saleVoids`, `cashSessions` and
`caixa.currentSessionId` pass through untouched). -/
def normalizeDBT (t : String) (db : DB) : DB :=
  { db with
    estoque := db.estoque.map normalizeProductT
    vendas := db.vendas.map (normalizeSaleT t) }

/-- The persisted store (the parsed content of the canonical storage key;
the success path of `safeSave`). -/
structure Store where
  db : DB
deriving DecidableEq, Inhabited

/-- `dbCore.get()`: a fresh parse of the persisted value, normalised. -/
def dbGet (t : String) (σ : Store) : DB := normalizeDBT t σ.db

/-- `dbCore.safeSave(db)` on its success path: normalise and persist. -/
def dbSafeSave (t : String) (db : DB) : Store := ⟨normalizeDBT t db⟩

/-- `ensureCollections` of `ops_cashier.js`: collections exist (typed: yes),
`caixa.aberto = !!caixa.aberto` (identity on `Bool`) and
`caixa.currentSessionId = caixa.currentSessionId || null` (an empty-string id
collapses to `null`). -/
def ensureCollectionsC (db : DB) : DB :=
  { db with caixa := { db.caixa with currentSessionId :=
      (match db.caixa.currentSessionId with
       | some s => if s = "" then none else some s
       | none => none) } }

/-- Replace the first product whose trimmed code is `code` (the in-place
mutation of the product found by `findProduct`). -/
def updateFirstProduct (code : String) (f : Product → Product) :
    List Product → List Product
  | [] => []
  | p :: rest =>
    if trimS p.cod = code then f p :: rest else p :: updateFirstProduct code f rest

/-- Replace the first session with the given id (the in-place mutation of the
session found by `currentSession`). -/
def updateFirstSession (id : String) (f : CashSession → CashSession) :
    List CashSession → List CashSession
  | [] => []
  | s :: rest => if s.id = id then f s :: rest else s :: updateFirstSession id f rest

/-- Replace the first sale whose trimmed id matches (the in-place mutation of
the sale found by `findSale`). -/
def updateFirstSale (saleId : String) (f : Sale → Sale) : List Sale → List Sale
  | [] => []
  | v :: rest =>
    if trimS v.id = trimS saleId then f v :: rest else v :: updateFirstSale saleId f rest

/-! ### Stock movements (`update/services/ops_stock_events.js`) -/

/-- Arguments of `addMovement` (missing `type` or a falsy one means
`'ajuste'`; `qtyDelta` wins over `qty`). -/
structure StockArgs where
  type : Option String := none
  productCod : String := ""
  qty : Option Int := none
  qtyDelta : Option Int := none
  reason : String := ""
deriving DecidableEq, Inhabited

/-- Result shape of `addMovement`. -/
structure StockResult where
  ok : Bool
  error : Option String := none
  movementId : Option String := none
  newQty : Option Int := none
deriving DecidableEq, Inhabited

/-- `applyDeltaToProduct` (`ops_stock_events.js` lines 27–30): add the delta
and clamp at zero. -/
def applyDeltaToProduct (qtd delta : Int) : Int :=
  if qtd + delta < 0 then 0 else qtd + delta

/-- `findProduct`: first product whose trimmed code equals the trimmed
argument. -/
def findProduct (db : DB) (productCod : String) : Option Product :=
  db.estoque.find? (fun p => trimS p.cod == trimS productCod)

/-- `addMovement({type, productCod, qty, qtyDelta, reason})`
(`ops_stock_events.js` lines 58–94): locate the product, enforce the sign by
type, apply the clamped delta, append the movement, persist. -/
def stockAddMovement (t : String) (gen : Nat) (σ : Store) (args : StockArgs) :
    StockResult × Store × Nat :=
  let db := dbGet t σ
  let code := trimS args.productCod
  match findProduct db args.productCod with
  | none => ({ ok := false, error := some "Produto não encontrado pelo código." }, σ, gen)
  | some prod =>
    let delta0 := match args.qtyDelta with | some d => d | none => args.qty.getD 0
    let ty := match args.type with
      | some s => (if s = "" then "ajuste" else s)
      | none => "ajuste"
    let delta :=
      if (ty = "saida" ∨ ty = "perda") ∧ delta0 > 0 then -delta0
      else if (ty = "entrada" ∨ ty = "devolucao") ∧ delta0 < 0 then -delta0
      else delta0
    let mvId := s!"sm_{gen}"
    let mv : StockMovement :=
      { id := mvId, atIso := t, type := ty, productCod := code, qtyDelta := delta,
        reason := args.reason }
    let db' := { db with
      estoque := updateFirstProduct code
        (fun p => { p with qtd := applyDeltaToProduct p.qtd delta }) db.estoque
      stockMovements := db.stockMovements ++ [mv] }
    ({ ok := true, movementId := some mvId,
       newQty := some (applyDeltaToProduct prod.qtd delta) },
     dbSafeSave t db', gen + 1)

/-! ### Cash sessions (`update/services/ops_cashier.js`) -/

/-- Result shape of the cashier operations. -/
structure CashResult where
  ok : Bool
  error : Option String := none
  sessionId : Option String := none
  movementId : Option String := none
  expected_c : Option Int := none
  counted_c : Option Int := none
  diff_c : Option Int := none
deriving DecidableEq, Inhabited

/-- `currentSession(db)`: the session the register pointer names, if any. -/
def currentSession (db : DB) : Option CashSession :=
  match (ensureCollectionsC db).caixa.currentSessionId with
  | none => none
  | some id => db.cashSessions.find? (fun s => s.id == id)

/-- `open({initial_c, note})` (`ops_cashier.js` lines 44–75): fail when a
session is open, else push a fresh session and point the register at it. -/
def cashOpen (t : String) (gen : Nat) (σ : Store) (initial_c : Int) (note : String) :
    CashResult × Store × Nat :=
  let db := ensureCollectionsC (dbGet t σ)
  if db.caixa.aberto then
    ({ ok := false, error := some "Caixa já está aberto." }, σ, gen)
  else
    let id := s!"cs_{gen}"
    let sess : CashSession :=
      { id := id, openedAtIso := t, initial_c := initial_c, expected_c := initial_c,
        note := note, movements := [] }
    let db' := { db with
      cashSessions := db.cashSessions ++ [sess]
      caixa := { aberto := true, currentSessionId := some id } }
    ({ ok := true, sessionId := some id }, dbSafeSave t db', gen + 1)

/-- The internal `addMovement(type, amount_c, meta)` of `ops_cashier.js`
(lines 78–99): require an open session, append the movement, bump
`expected_c`, persist. -/
def cashAddMovement (t : String) (gen : Nat) (σ : Store) (ty : String)
    (amount_c : Int) : CashResult × Store × Nat :=
  let db := ensureCollectionsC (dbGet t σ)
  match currentSession db with
  | none => ({ ok := false, error := some "Caixa não está aberto." }, σ, gen)
  | some sess =>
    let mv : CashMovement := { id := s!"cm_{gen}", atIso := t, type := ty, amount_c := amount_c }
    let newExpected := sess.expected_c + mv.amount_c
    let db' := { db with
      cashSessions := updateFirstSession sess.id
        (fun s => { s with movements := s.movements ++ [mv], expected_c := newExpected })
        db.cashSessions }
    ({ ok := true, movementId := some mv.id, expected_c := some newExpected },
     dbSafeSave t db', gen + 1)

/-- `addSale({amount_c})`: a `venda` movement of `Math.abs(asInt(amount_c))`. -/
def cashAddSale (t : String) (gen : Nat) (σ : Store) (amount_c : Int) :
    CashResult × Store × Nat :=
  cashAddMovement t gen σ "venda" |amount_c|

/-- `addVoid({amount_c})`: an `estorno` movement of `-Math.abs(asInt(amount_c))`. -/
def cashAddVoid (t : String) (gen : Nat) (σ : Store) (amount_c : Int) :
    CashResult × Store × Nat :=
  cashAddMovement t gen σ "estorno" (-|amount_c|)

/-- `withdraw({amount_c})`: a `sangria` movement of `-Math.abs(asInt(amount_c))`. -/
def cashWithdraw (t : String) (gen : Nat) (σ : Store) (amount_c : Int) :
    CashResult × Store × Nat :=
  cashAddMovement t gen σ "sangria" (-|amount_c|)

/-- `reinforce({amount_c})`: a `reforco` movement of `Math.abs(asInt(amount_c))`. -/
def cashReinforce (t : String) (gen : Nat) (σ : Store) (amount_c : Int) :
    CashResult × Store × Nat :=
  cashAddMovement t gen σ "reforco" |amount_c|

/-- `close({counted_c, note})` (`ops_cashier.js` lines 123–145): require an
open session, record `counted_c`, compute `diff_c = counted_c - expected_c`,
clear the register pointer, persist. -/
def cashClose (t : String) (σ : Store) (counted_c : Int) (note : String) :
    CashResult × Store :=
  let db := ensureCollectionsC (dbGet t σ)
  match currentSession db with
  | none => ({ ok := false, error := some "Caixa não está aberto." }, σ)
  | some sess =>
    let counted := counted_c
    let diff := counted - sess.expected_c
    let db' := { db with
      cashSessions := updateFirstSession sess.id
        (fun s => { s with
          closedAtIso := some t
          counted_c := some counted
          diff_c := some diff
          note := (if note ≠ "" then note else s.note) })
        db.cashSessions
      caixa := { aberto := false, currentSessionId := none } }
    ({ ok := true, sessionId := some sess.id, expected_c := some sess.expected_c,
       counted_c := some counted, diff_c := some diff }, dbSafeSave t db')

/-! ### Sale voids (`update/services/ops_sales_refund.js`) -/

/-- Result shape of `cancelSale`. -/
structure CancelResult where
  ok : Bool
  error : Option String := none
  voidId : Option String := none
  stockMovements : List String := []
deriving DecidableEq, Inhabited

/-- `findSale(db, saleId)`: first sale whose trimmed id matches. -/
def findSale (db : DB) (saleId : String) : Option Sale :=
  db.vendas.find? (fun v => trimS v.id == trimS saleId)

/-- The restock loop body of `cancelSale`: one `devolucao` movement per line
item with a nonempty code and positive quantity, each through
`stockOps.addMovement` (which re-reads and re-persists the store itself). -/
def cancelRestockStep (t : String) (saleId reason : String)
    (acc : List String × Store × Nat) (it : SaleItem) : List String × Store × Nat :=
  let code := trimS it.cod
  let qty := it.qtd
  if code = "" ∨ qty ≤ 0 then acc
  else
    let r := stockAddMovement t acc.2.2 acc.2.1
      { type := some "devolucao", productCod := code, qtyDelta := some qty,
        reason := s!"Estorno venda {saleId}: {reason}" }
    ((if r.1.ok then acc.1 ++ [r.1.movementId.getD ""] else acc.1), r.2.1, r.2.2)

/-- `cancelSale({saleId, reason, restock})` (`ops_sales_refund.js` lines
148–206): refuse missing or already-voided sales; otherwise restock via
stock movements, post an `estorno` cash movement, then append the `SaleVoid`
and flip the sale's status on the copy of the database read at entry and
persist that copy.  (That final `safeSave` writes the entry-time copy, so it
overwrites the stock and cash writes the helpers persisted meanwhile —
mirrored here exactly as the source does it.) -/
def cancelSale (t : String) (gen : Nat) (σ : Store) (saleId : String)
    (reason : String := "Cancelado") (restock : Bool := true) :
    CancelResult × Store × Nat :=
  let db := dbGet t σ
  match findSale db saleId with
  | none => ({ ok := false, error := some "Venda não encontrada." }, σ, gen)
  | some sale =>
    if db.saleVoids.any (fun x => x.saleId == saleId) then
      ({ ok := false, error := some "Venda já cancelada anteriormente." }, σ, gen)
    else
      let voidId := s!"void_{gen}"
      let folded :=
        if restock then sale.itens.foldl (cancelRestockStep t saleId reason) ([], σ, gen + 1)
        else ([], σ, gen + 1)
      let createdMovs := folded.1
      let cashR := cashAddVoid t folded.2.2 folded.2.1 (-|sale.total_c|)
      let entry : SaleVoid :=
        { id := voidId, atIso := t, saleId := saleId, reason := reason,
          stockMovementsCreated := createdMovs }
      let dbFinal := { db with
        saleVoids := db.saleVoids ++ [entry]
        vendas := updateFirstSale saleId
          (fun s => { s with
            status := "cancelada"
            cancelReason := reason
            canceledAtIso := some t }) db.vendas }
      ({ ok := true, voidId := some voidId, stockMovements := createdMovs },
       dbSafeSave t dbFinal, cashR.2.2)

/-- The session with the given id in a persisted store (observing what a
cashier operation stored for that session). -/
def sessionAfter (σ : Store) (id : String) : Option CashSession :=
  σ.db.cashSessions.find? (fun s => s.id == id)

/-- `String.set` on the code-unit index `i` (byte flips for the backup
integrity analysis). -/
def setCharAt (s : String) (i : Nat) (c : Char) : String :=
  String.mk (s.toList.set i c)

/-- The decimal digits of a natural number, most significant first (the
character list `Nat.repr` produces). -/
def natChars (n : Nat) : List Char :=
  if h : n < 10 then [Nat.digitChar n]
  else natChars (n / 10) ++ [Nat.digitChar (n % 10)]
decreasing_by
  exact Nat.div_lt_self (by omega) (by omega)

/-- Head-of-list guard: the continuation after a rendered number must not
begin with a digit (nothing `stringify` emits after a value does). -/
def noDigitHead : List Char → Bool
  | [] => true
  | c :: _ => !isDigitC c

mutual
/-- Fuel sufficient for `parseVal` on a rendered value. -/
def fuelV : JVal → Nat
  | jnull => 1
  | jbool _ => 1
  | jnum _ => 1
  | jstr _ => 1
  | jarr xs => 1 + fuelArr xs
  | jobj fs => 1 + fuelObj fs
/-- Fuel sufficient for `parseElems` on rendered elements. -/
def fuelArr : List JVal → Nat
  | [] => 1
  | x :: xs => 1 + max (fuelV x) (fuelArr xs)
/-- Fuel sufficient for `parseMembers` on rendered members. -/
def fuelObj : List (String × JVal) → Nat
  | [] => 1
  | (_, v) :: fs => 1 + max (fuelV v) (fuelObj fs)
end


/-- §8 example current database, with non-quantity fields on the colliding
item to exercise the generic object-merge rule. -/
def mergeExCurrent : JVal :=
  jobj [("estoque", jarr [jobj [("cod", jstr "A"), ("qtd", jnum 10),
    ("nome", jstr "Velho"), ("preco_c", jnum 500)]])]

/-- §8 example incoming database. -/
def mergeExIncoming : JVal :=
  jobj [("estoque", jarr [jobj [("cod", jstr "A"), ("qtd", jnum 5),
    ("nome", jstr "Novo")]])]

/-- A current-side stock item without a product code, next to an empty
incoming list. -/
def noCodCurrent : JVal :=
  jobj [("estoque", jarr [jobj [("nome", jstr "x"), ("qtd", jnum 1)]])]

/-- The warning `mergeEstoque` records for one incoming item, if any: exactly
the object items whose extracted code normalises to empty. -/
def droppedWarn (it : JVal) : Option String :=
  match normItem it with
  | some o => if itemCod o = "" then some estoqueNoCodWarning else none
  | none => none

/-- C1 failing input: one product `"X"` with quantity 10 and one active sale
of 3 units of `"X"` (total 300 cents), no open cash session. -/
def c1Store : Store :=
  ⟨{ estoque := [{ cod := "X", qtd := 10 }]
     vendas := [{ id := "s1", status := "ativa"
                  itens := [{ cod := "X", qtd := 3, preco_c := 100 }]
                  total_c := 300 }] }⟩

/-- A sample database for the backup byte-flip analysis. -/
def dbE : JVal :=
  jobj [("schemaVersion", jnum 1),
    ("estoque", jarr [jobj [("cod", jstr "A"), ("qtd", jnum 12)]])]

/-! # Theorems

Association-list infrastructure first, then one theorem per claim (with its
counterexample/witness companions). -/

theorem objGet_objSet_same (o : List (String × JVal)) (k : String) (v : JVal) :
    objGet (objSet o k v) k = some v := by
  induction o with
  | nil => simp [objSet, objGet]
  | cons p rest ih =>
    obtain ⟨k', v'⟩ := p
    by_cases h : k' = k
    · simp [objSet, objGet, h]
    · simp [objSet, objGet, h, ih]

theorem objGet_objSet_ne (o : List (String × JVal)) {k k' : String} (v : JVal)
    (h : k' ≠ k) : objGet (objSet o k v) k' = objGet o k' := by
  induction o with
  | nil => simp [objSet, objGet, Ne.symm h]
  | cons p rest ih =>
    obtain ⟨k₀, v₀⟩ := p
    by_cases h0 : k₀ = k
    · subst h0
      simp [objSet, objGet, Ne.symm h]
    · simp [objSet, objGet, h0, ih]

theorem objSet_objGet_eq {o : List (String × JVal)} {k : String} {v : JVal}
    (h : objGet o k = some v) : objSet o k v = o := by
  induction o with
  | nil => simp [objGet] at h
  | cons p rest ih =>
    obtain ⟨k₀, v₀⟩ := p
    by_cases h0 : k₀ = k
    · subst h0
      simp [objGet] at h
      simp [objSet, h]
    · simp [objGet, h0] at h
      simp [objSet, h0, ih h]

theorem objSet_keys_pred {P : String → Prop} {o : List (String × JVal)}
    {k : String} (v : JVal) (ho : ∀ p ∈ o, P p.1) (hk : P k) :
    ∀ p ∈ objSet o k v, P p.1 := by
  induction o with
  | nil => simpa [objSet] using hk
  | cons q rest ih =>
    obtain ⟨k₀, v₀⟩ := q
    by_cases h0 : k₀ = k
    · subst h0
      simp only [objSet, if_pos rfl]
      intro p hp
      rcases List.mem_cons.mp hp with hp | hp
      · simpa [hp] using hk
      · exact ho p (List.mem_cons_of_mem _ hp)
    · simp only [objSet, if_neg h0]
      intro p hp
      rcases List.mem_cons.mp hp with hp | hp
      · exact ho p (by simp [hp])
      · exact ih (fun q hq => ho q (List.mem_cons_of_mem _ hq)) p hp

mutual
/-- The field walk of the object merge never records warnings (only
conflicts). -/
theorem mergeObjectsGo_warnings (prefer : String) :
    ∀ (out b : List (String × JVal)) (rep : MergeReport) (pfx : String),
    (mergeObjectsGo prefer out b rep pfx).2.warnings = rep.warnings
  | out, [], rep, pfx => by rw [mergeObjectsGo]
  | out, (k, vb) :: rest, rep, pfx => by
    rw [mergeObjectsGo]
    simp only
    by_cases hhas : objHas out k = true
    · simp only [if_pos hhas]
      by_cases harr : (isArrJ ((objGet out k).getD jnull) || isArrJ vb) = true
      · simp only [if_pos harr]
        exact mergeObjectsGo_warnings prefer _ rest rep pfx
      · simp only [if_neg harr]
        by_cases hobj : (isObjJ ((objGet out k).getD jnull) || isObjJ vb) = true
        · simp only [if_pos hobj]
          rw [mergeObjectsGo_warnings prefer _ rest,
            mergeObjectsVal_warnings prefer (fieldsOf ((objGet out k).getD jnull)) vb]
        · simp only [if_neg hobj]
          by_cases hne : (objGet out k).getD jnull ≠ vb
          · simp only [if_pos hne]
            rw [mergeObjectsGo_warnings prefer _ rest]
          · simp only [if_neg hne]
            exact mergeObjectsGo_warnings prefer _ rest rep pfx
    · simp only [if_neg hhas]
      exact mergeObjectsGo_warnings prefer _ rest rep pfx
/-- The nested-value case of `mergeObjectsGo_warnings`. -/
theorem mergeObjectsVal_warnings (prefer : String) :
    ∀ (va' : List (String × JVal)) (vb : JVal) (rep : MergeReport) (p : String),
    (mergeObjectsVal prefer va' vb rep p).2.warnings = rep.warnings
  | va', jobj bo, rep, p => mergeObjectsGo_warnings prefer va' bo rep p
  | va', jnull, rep, p => rfl
  | va', jbool b, rep, p => rfl
  | va', jnum n, rep, p => rfl
  | va', jstr s, rep, p => rfl
  | va', jarr xs, rep, p => rfl
end

/-- The merge of two objects never records warnings (only conflicts). -/
theorem mergeObjects_warnings (out b : List (String × JVal)) (prefer : String)
    (rep : MergeReport) (pfx : String) :
    (mergeObjects out b prefer rep pfx).2.warnings = rep.warnings :=
  mergeObjectsGo_warnings prefer out b rep pfx

/-! ### C2 — estoque merge quantities -/

/-- C2: merging `current={estoque:[{cod:"A",qtd:10,…}]}` with
`incoming={estoque:[{cod:"A",qtd:5,…}]}` under `sumStockQty=true` (the
default) yields the single item `"A"` with `qtd=15`; under
`sumStockQty=false, prefer="import"` it yields `qtd=5`.  The non-quantity
fields merge by the generic object-merge rule: with `prefer="current"` the
current `nome` is kept and the difference is recorded as a conflict, with
`prefer="import"` the incoming `nome` wins; the current-only `preco_c`
survives either way. -/
theorem mergeDBSmart_estoque_quantities :
    (mergeDBSmart "T" mergeExCurrent mergeExIncoming {}).1
      = jobj [("estoque", jarr [jobj [("cod", jstr "A"), ("qtd", jnum 15),
          ("nome", jstr "Velho"), ("preco_c", jnum 500)]])]
    ∧ (mergeDBSmart "T" mergeExCurrent mergeExIncoming
        { prefer := "import", sumStockQty := false }).1
      = jobj [("estoque", jarr [jobj [("cod", jstr "A"), ("qtd", jnum 5),
          ("nome", jstr "Novo"), ("preco_c", jnum 500)]])]
    ∧ (mergeDBSmart "T" mergeExCurrent mergeExIncoming {}).2.conflicts.map (·.path)
      = ["estoque:A.qtd", "estoque:A.nome"] := by
  refine ⟨by decide, by decide, by decide⟩

/-! ### C9 — code-less estoque items -/

/-- C9 counterexample: a CURRENT-side item without a code is dropped from the
merged result but no warning is recorded — the warning exists only for
incoming items, so the claim's "from either the current or the incoming
collection … a warning is recorded" is false. -/
theorem mergeEstoque_current_drop_is_silent :
    (mergeDBSmart "T" noCodCurrent (jobj [("estoque", jarr [])]) {}).1
      = jobj [("estoque", jarr [])]
    ∧ (mergeDBSmart "T" noCodCurrent (jobj [("estoque", jarr [])]) {}).2.warnings = [] := by
  refine ⟨by decide, by decide⟩

theorem mergeEstoqueB_warnings (sum : Bool) (prefer : String) :
    ∀ (arrB : List JVal) (m : List (String × JVal)) (rep : MergeReport),
    (mergeEstoqueB sum prefer m rep arrB).2.warnings
      = rep.warnings ++ arrB.filterMap droppedWarn := by
  intro arrB
  induction arrB with
  | nil => intro m rep; simp [mergeEstoqueB]
  | cons it rest ih =>
    intro m rep
    rw [mergeEstoqueB]
    simp only
    match hn : normItem it with
    | none => simp [hn, ih, droppedWarn]
    | some o =>
      by_cases hc : itemCod o = ""
      · simp only [hn, if_pos hc, ih]
        simp [droppedWarn, hn, hc]
      · by_cases hm : objHas m (itemCod o) = true
        · simp only [hn, if_neg hc]
          rw [if_neg (by simp [hm])]
          rw [ih]
          simp [droppedWarn, hn, hc, mergeObjects_warnings]
        · simp only [hn, if_neg hc]
          rw [if_pos (by simp [hm])]
          simp [ih, droppedWarn, hn, hc]

theorem loadEstoqueA_keys (arrA : List JVal) :
    ∀ (m : List (String × JVal)), (∀ p ∈ m, p.1 ≠ "") →
    ∀ p ∈ loadEstoqueA m arrA, p.1 ≠ "" := by
  induction arrA with
  | nil => intro m hm; simpa [loadEstoqueA] using hm
  | cons it rest ih =>
    intro m hm
    rw [loadEstoqueA]
    match hn : normItem it with
    | none => exact ih m hm
    | some o =>
      simp only
      by_cases hc : itemCod o = ""
      · simp only [if_pos hc]
        exact ih m hm
      · simp only [if_neg hc]
        exact ih _ (@objSet_keys_pred (fun s => s ≠ "") _ _ _ hm hc)

theorem mergeEstoqueB_keys (sum : Bool) (prefer : String) (arrB : List JVal) :
    ∀ (m : List (String × JVal)) (rep : MergeReport), (∀ p ∈ m, p.1 ≠ "") →
    ∀ p ∈ (mergeEstoqueB sum prefer m rep arrB).1, p.1 ≠ "" := by
  induction arrB with
  | nil => intro m rep hm; simpa [mergeEstoqueB] using hm
  | cons it rest ih =>
    intro m rep hm
    rw [mergeEstoqueB]
    match hn : normItem it with
    | none => exact ih m rep hm
    | some o =>
      simp only
      by_cases hc : itemCod o = ""
      · simp only [if_pos hc]
        exact ih m _ hm
      · by_cases hmem : objHas m (itemCod o) = true
        · simp only [if_neg hc, hmem, Bool.not_true, Bool.false_eq_true, if_false]
          exact ih _ _ (@objSet_keys_pred (fun s => s ≠ "") _ _ _ hm hc)
        · simp only [if_neg hc]
          rw [if_pos (by simp [hmem])]
          exact ih _ _ (@objSet_keys_pred (fun s => s ≠ "") _ _ _ hm hc)

/-- C9 amended: in the estoque merge, exactly the INCOMING object items whose
product code is missing/empty produce the "Ignorado" warning (one per item,
in order); current-side items without a code are dropped silently; and no item
is ever registered in the merge map under an empty code (code-less items of
either side are dropped from the result rather than merged). -/
theorem mergeEstoque_warning_spec (arrA arrB : List JVal) (sum : Bool)
    (prefer : String) (rep : MergeReport) :
    (mergeEstoque arrA arrB sum prefer rep).2.warnings
      = rep.warnings ++ arrB.filterMap droppedWarn
    ∧ ∀ p ∈ (mergeEstoqueB sum prefer (loadEstoqueA [] arrA) rep arrB).1, p.1 ≠ "" := by
  constructor
  · simpa [mergeEstoque] using mergeEstoqueB_warnings sum prefer arrB (loadEstoqueA [] arrA) rep
  · exact mergeEstoqueB_keys sum prefer arrB _ rep
      (loadEstoqueA_keys arrA [] (by simp))

/-- C9 amended, witnessed at the §8-like inputs: one incoming item without a
code yields exactly the one warning, and the surviving key "A" is nonempty. -/
theorem mergeEstoque_warning_spec_witness :
    (mergeEstoque [jobj [("cod", jstr "A"), ("qtd", jnum 1)]]
        [jobj [("qtd", jnum 2)]] true "current" ⟨"T", [], [], [], []⟩).2.warnings
      = [estoqueNoCodWarning]
    ∧ ("A", jobj [("cod", jstr "A"), ("qtd", jnum 1)]).1 ≠ "" := by
  constructor
  · have h := (mergeEstoque_warning_spec [jobj [("cod", jstr "A"), ("qtd", jnum 1)]]
      [jobj [("qtd", jnum 2)]] true "current" ⟨"T", [], [], [], []⟩).1
    rw [h]
    decide
  · exact (mergeEstoque_warning_spec [jobj [("cod", jstr "A"), ("qtd", jnum 1)]]
      [jobj [("qtd", jnum 2)]] true "current" ⟨"T", [], [], [], []⟩).2
      ("A", jobj [("cod", jstr "A"), ("qtd", jnum 1)]) (by decide)

/-! ### C1 — cancelSale restock persistence (code bug) -/

/-- C1 (code bug, evaluated at the failing input): `cancelSale` with
`restock=true` reports success and creates exactly one `SaleVoid`, and its
restock helper persists quantity 13 mid-flight; but the final `safeSave`
writes the stale copy read at entry, so the PERSISTED quantity of `"X"`
stays 10 (the claim and spec require 13) and the persisted `devolucao`
movement is lost.  The second `cancelSale` on the same id does fail with the
"already voided" error and performs no further mutation. -/
theorem cancelSale_loses_restock :
    (cancelSale "T" 0 c1Store "s1" "motivo" true).1.ok = true
    ∧ (cancelSale "T" 0 c1Store "s1" "motivo" true).2.1.db.estoque
        = [{ cod := "X", qtd := 10 }]
    ∧ (cancelSale "T" 0 c1Store "s1" "motivo" true).2.1.db.stockMovements = []
    ∧ ((cancelSale "T" 0 c1Store "s1" "motivo" true).2.1.db.saleVoids.map (·.saleId))
        = ["s1"]
    ∧ (([{ cod := "X", qtd := 3, preco_c := 100 }] : List SaleItem).foldl
        (cancelRestockStep "T" "s1" "motivo") ([], c1Store, 1)).2.1.db.estoque
        = [{ cod := "X", qtd := 13 }]
    ∧ (cancelSale "T2" (cancelSale "T" 0 c1Store "s1" "motivo" true).2.2
        (cancelSale "T" 0 c1Store "s1" "motivo" true).2.1 "s1" "outra" true)
        = ({ ok := false, error := some "Venda já cancelada anteriormente." },
           (cancelSale "T" 0 c1Store "s1" "motivo" true).2.1,
           (cancelSale "T" 0 c1Store "s1" "motivo" true).2.2) := by
  refine ⟨by decide, by decide, by decide, by decide, by decide, by decide⟩

/-! ### C3 — normalisation fixed point -/

/-- C3 counterexample: `normalizeDB` stamps `meta.updatedAt` with the call
time, so applying it twice (at distinct instants) does NOT reproduce the
first output — neither the serialised bytes nor the value agree
(`updatedAt` is `"T2"` vs `"T1"`). -/
theorem normalizeDB_twice_differs :
    stringifyC (normalizeDB "T2" (normalizeDB "T1" (jobj [])).1).1
      ≠ stringifyC (normalizeDB "T1" (jobj [])).1
    ∧ (normalizeDB "T2" (normalizeDB "T1" (jobj [])).1).1
      ≠ (normalizeDB "T1" (jobj [])).1 := by
  refine ⟨by decide, by decide⟩

theorem dropWhile_head_not {p : Char → Bool} {l : List Char} {c : Char} {cs : List Char}
    (h : l.dropWhile p = c :: cs) : p c = false := by
  induction l with
  | nil => cases h
  | cons x xs ih =>
    by_cases hx : p x = true
    · rw [List.dropWhile_cons, if_pos hx] at h
      exact ih h
    · rw [List.dropWhile_cons, if_neg hx] at h
      cases h
      exact Bool.not_eq_true _ |>.mp hx

theorem dropWhile_rdropWhile (p : Char → Bool) (l : List Char) :
    (List.rdropWhile p (List.dropWhile p l)).dropWhile p
      = List.rdropWhile p (List.dropWhile p l) := by
  cases h : List.rdropWhile p (List.dropWhile p l) with
  | nil => rfl
  | cons c cs =>
    have hpre : List.rdropWhile p (List.dropWhile p l) <+: List.dropWhile p l :=
      List.rdropWhile_prefix p _
    rw [h] at hpre
    obtain ⟨rest, hrest⟩ := hpre
    have hc : p c = false :=
      @dropWhile_head_not p l c (cs ++ rest) (by rw [← hrest]; rfl)
    simp [List.dropWhile_cons, hc]

theorem trimL_eq_rdropWhile (l : List Char) :
    trimL l = List.rdropWhile isWsC (l.dropWhile isWsC) := rfl

/-- JS `trim` is idempotent. -/
theorem trimL_idem (l : List Char) : trimL (trimL l) = trimL l := by
  rw [trimL_eq_rdropWhile, trimL_eq_rdropWhile, dropWhile_rdropWhile,
    List.rdropWhile_idempotent]

theorem trimS_idem (s : String) : trimS (trimS s) = trimS s := by
  show String.mk (trimL (String.mk (trimL s.toList)).toList) = _
  rw [show (String.mk (trimL s.toList)).toList = trimL s.toList from rfl, trimL_idem]
  rfl

theorem asStr_jstr (s : String) : asStr (some (jstr s)) = s := rfl

theorem asStr_none : asStr none = "" := rfl

theorem asInt_jnum (n d : Int) : asInt (some (jnum n)) d = n := rfl

theorem asNum_jnum (n d : Int) : asNum (some (jnum n)) d = n := rfl

theorem trimS_empty : trimS "" = "" := rfl

theorem truthyOpt_some (v : JVal) : truthyOpt (some v) = truthy v := rfl

theorem truthyOpt_none : truthyOpt none = false := rfl

theorem truthy_jbool (b : Bool) : truthy (jbool b) = b := rfl

theorem arrOrEmpty_some (xs : List JVal) : arrOrEmpty (some (jarr xs)) = xs := rfl

theorem objOrEmpty_some (f : List (String × JVal)) : objOrEmpty (some (jobj f)) = f := rfl

/-- The keep-or-stamp pattern (`meta.createdAt`, `dataIso`) always produces a
truthy value or the fresh stamp itself. -/
theorem stamp_or (g : Option JVal) (t : String) :
    truthy (if truthyOpt g then g.getD jnull else jstr t) = true
    ∨ (if truthyOpt g then g.getD jnull else jstr t) = jstr t := by
  cases g with
  | none => exact Or.inr (by simp [truthyOpt])
  | some v =>
    by_cases h : truthy v = true
    · exact Or.inl (by simp [truthyOpt, h])
    · exact Or.inr (by simp [truthyOpt, h])

theorem stamp_fix {D : JVal} {t : String}
    (hD : truthy D = true ∨ D = jstr t) :
    (if truthy D = true then D else jstr t) = D := by
  rcases hD with h | h
  · rw [if_pos h]
  · subst h
    exact ite_self _

/-- Re-running the keep-or-stamp pattern on its own output is the identity
(at the same timestamp). -/
theorem stamp_stamp (g : Option JVal) (t : String) :
    (if truthy (if truthyOpt g then g.getD jnull else jstr t)
       then (if truthyOpt g then g.getD jnull else jstr t) else jstr t)
      = (if truthyOpt g then g.getD jnull else jstr t) :=
  stamp_fix (stamp_or g t)

/-- The per-item normaliser of the `vendas` loop is idempotent. -/
theorem normSaleItem_idem (i : JVal) : normSaleItem (normSaleItem i) = normSaleItem i := by
  cases i with
  | jobj o =>
    simp +decide [normSaleItem, objGet_objSet_same, objGet_objSet_ne, objSet_objGet_eq,
      asStr_jstr, asNum_jnum, asInt_jnum, trimS_idem]
  | jnull => rfl
  | jbool b => rfl
  | jnum n => rfl
  | jstr s => rfl
  | jarr xs => rfl

theorem clamp_idem (x : Int) :
    (if (if x < 0 then (0 : Int) else x) < 0 then (0 : Int) else if x < 0 then 0 else x)
      = if x < 0 then 0 else x := by
  by_cases h : x < 0 <;> simp [h]

/-- The per-product normaliser of the `estoque` loop is idempotent on the
kept value. -/
theorem normProduct_idem (p : JVal) : (normProduct (normProduct p).1).1 = (normProduct p).1 := by
  cases p with
  | jobj o =>
    simp +decide [normProduct, objGet_objSet_same, objGet_objSet_ne, objSet_objGet_eq,
      asStr_jstr, asNum_jnum, asInt_jnum, trimS_idem, clamp_idem]
  | jnull => rfl
  | jbool b => rfl
  | jnum n => rfl
  | jstr s => rfl
  | jarr xs => rfl

theorem comp_normSaleItem : normSaleItem ∘ normSaleItem = normSaleItem :=
  funext normSaleItem_idem

/-- The per-sale normaliser (at a fixed timestamp) is idempotent on the kept
value. -/
theorem normSale_idem (t : String) (v : JVal) :
    (normSale t (normSale t v).1).1 = (normSale t v).1 := by
  cases v with
  | jobj o =>
    by_cases hid : trimS (asStr (objGet o "id")) = ""
    · rcases hG : objGet o "id" with _ | old
      · simp +decide [normSale, hid, hG, objGet_objSet_same, objGet_objSet_ne,
          objSet_objGet_eq, asStr_jstr, asStr_none, asNum_jnum, asInt_jnum, trimS_idem,
          trimS_empty, clamp_idem, stamp_stamp, comp_normSaleItem, arrOrEmpty_some,
          truthyOpt_some, truthyOpt_none]
      · rw [hG] at hid
        simp +decide [normSale, hid, hG, objGet_objSet_same, objGet_objSet_ne,
          objSet_objGet_eq, asStr_jstr, asStr_none, asNum_jnum, asInt_jnum, trimS_idem,
          trimS_empty, clamp_idem, stamp_stamp, comp_normSaleItem, arrOrEmpty_some,
          truthyOpt_some, truthyOpt_none]
    · simp +decide [normSale, hid, objGet_objSet_same, objGet_objSet_ne,
        objSet_objGet_eq, asStr_jstr, asNum_jnum, asInt_jnum, trimS_idem,
        clamp_idem, stamp_stamp, comp_normSaleItem, arrOrEmpty_some,
        truthyOpt_some, truthyOpt_none]
  | jnull => rfl
  | jbool b => rfl
  | jnum n => rfl
  | jstr s => rfl
  | jarr xs => rfl

theorem comp_normProduct_fst :
    ((fun (r : JVal × List String) => r.1) ∘ normProduct
        ∘ (fun (r : JVal × List String) => r.1) ∘ normProduct)
      = ((fun (r : JVal × List String) => r.1) ∘ normProduct) :=
  funext fun p => normProduct_idem p

theorem comp_normSale_fst (t : String) :
    ((fun (r : JVal × List String) => r.1) ∘ normSale t
        ∘ (fun (r : JVal × List String) => r.1) ∘ normSale t)
      = ((fun (r : JVal × List String) => r.1) ∘ normSale t) :=
  funext fun v => normSale_idem t v

/-- The default database is a fixed point of `normalizeDB` at the timestamp
it was created with. -/
theorem normalizeDB_defaultDB (t : String) :
    (normalizeDB t (defaultDB t)).1 = defaultDB t := by
  simp +decide [normalizeDB, defaultDB, SCHEMA_VERSION, objGet, objSet, objOrEmpty,
    arrOrEmpty, truthyOpt, truthy, asInt, asNum]

/-- `normalizeDB` is idempotent on the database value when both passes run at
the same `nowIso()` instant. -/
theorem normalizeDB_idem (t : String) (x : JVal) :
    (normalizeDB t (normalizeDB t x).1).1 = (normalizeDB t x).1 := by
  cases x with
  | jobj o =>
    simp +decide [normalizeDB, objGet_objSet_same, objGet_objSet_ne, objSet_objGet_eq,
      asInt_jnum, stamp_stamp, truthyOpt_some, truthy_jbool, objOrEmpty_some,
      arrOrEmpty_some, comp_normProduct_fst, comp_normSale_fst t]
  | jnull => exact normalizeDB_defaultDB t
  | jbool b => exact normalizeDB_defaultDB t
  | jnum n => exact normalizeDB_defaultDB t
  | jstr s => exact normalizeDB_defaultDB t
  | jarr xs => exact normalizeDB_defaultDB t

/-- C3 (amended): `normalizeDB` restamps `meta.updatedAt` with the call
time, so byte-identical repetition fails across distinct instants (see the
counterexample); with the timestamp fixed — both applications at the same
`nowIso()` value `t` — normalisation IS a fixed point: the second pass
returns the first pass's database unchanged, both as a value and after
serialisation, for every input `x`.  In particular the second application
destroys no data kept by the first. -/
theorem normalizeDB_fixed_point (t : String) (x : JVal) :
    (normalizeDB t (normalizeDB t x).1).1 = (normalizeDB t x).1
    ∧ stringifyC (normalizeDB t (normalizeDB t x).1).1 = stringifyC (normalizeDB t x).1 :=
  ⟨normalizeDB_idem t x, congrArg stringifyC (normalizeDB_idem t x)⟩

/-! ### C6 — stock clamp and missing product -/

theorem applyDeltaToProduct_nonneg (q d : Int) : 0 ≤ applyDeltaToProduct q d := by
  unfold applyDeltaToProduct
  split <;> omega

theorem normalizeProductT_qtd_nonneg (p : Product) : 0 ≤ (normalizeProductT p).qtd := by
  simp only [normalizeProductT]
  split <;> omega

/-- C6: after any successful `addMovement`, every persisted product quantity
is non-negative (the applied delta is clamped at zero and the save path
normalises), the reported `newQty` is never negative; and a code absent from
`estoque` yields exactly the "product not found" error with no state
change. -/
theorem addMovement_clamps_and_rejects_missing (t : String) (gen : Nat)
    (σ : Store) (args : StockArgs) :
    ((stockAddMovement t gen σ args).1.ok = true →
      ∀ p ∈ (stockAddMovement t gen σ args).2.1.db.estoque, 0 ≤ p.qtd)
    ∧ (∀ q, (stockAddMovement t gen σ args).1.newQty = some q → 0 ≤ q)
    ∧ (findProduct (dbGet t σ) args.productCod = none →
        stockAddMovement t gen σ args
          = ({ ok := false, error := some "Produto não encontrado pelo código." }, σ, gen)) := by
  cases hf : findProduct (dbGet t σ) args.productCod with
  | none =>
    simp only [stockAddMovement, hf]
    refine ⟨?_, ?_, fun _ => trivial⟩
    · intro h; simp at h
    · intro q h; simp at h
  | some prod =>
    simp only [stockAddMovement, hf]
    refine ⟨?_, ?_, ?_⟩
    · intro _ p hp
      simp only [dbSafeSave, normalizeDBT] at hp
      obtain ⟨p0, _, rfl⟩ := List.mem_map.mp hp
      exact normalizeProductT_qtd_nonneg p0
    · intro q h
      simp only [Option.some.injEq] at h
      rw [← h]
      exact applyDeltaToProduct_nonneg _ _
    · intro h
      cases h

/-- C6 witness: `addMovement({type:"saida", qty:5})` on `qtd=3` clamps to
`newQty=0` (never negative), and a missing code is rejected unchanged. -/
theorem addMovement_clamps_witness :
    (stockAddMovement "T" 0 ⟨{ estoque := [{ cod := "P", qtd := 3 }] }⟩
        { type := some "saida", productCod := "P", qty := some 5 }).1.newQty = some 0
    ∧ (0 : Int) ≤ 0
    ∧ stockAddMovement "T" 0 ⟨{ estoque := [{ cod := "P", qtd := 3 }] }⟩
        { type := some "saida", productCod := "Q", qty := some 5 }
      = ({ ok := false, error := some "Produto não encontrado pelo código." },
         ⟨{ estoque := [{ cod := "P", qtd := 3 }] }⟩, 0) := by
  refine ⟨by decide, ?_, ?_⟩
  · exact (addMovement_clamps_and_rejects_missing "T" 0
      ⟨{ estoque := [{ cod := "P", qtd := 3 }] }⟩
      { type := some "saida", productCod := "P", qty := some 5 }).2.1 0 (by decide)
  · exact (addMovement_clamps_and_rejects_missing "T" 0
      ⟨{ estoque := [{ cod := "P", qtd := 3 }] }⟩
      { type := some "saida", productCod := "Q", qty := some 5 }).2.2 (by decide)

/-! ### Cashier infrastructure (C10, C5) -/

theorem normalizeDBT_cashSessions (t : String) (db : DB) :
    (normalizeDBT t db).cashSessions = db.cashSessions := rfl

theorem normalizeDBT_caixa (t : String) (db : DB) :
    (normalizeDBT t db).caixa = db.caixa := rfl

theorem ensureCollectionsC_cashSessions (db : DB) :
    (ensureCollectionsC db).cashSessions = db.cashSessions := rfl

theorem find?_updateFirstSession {l : List CashSession} {id : String}
    {f : CashSession → CashSession} {sess : CashSession}
    (hfind : l.find? (fun s => s.id == id) = some sess)
    (hid : (f sess).id = sess.id) (hsid : sess.id = id) :
    (updateFirstSession id f l).find? (fun s => s.id == id) = some (f sess) := by
  induction l with
  | nil => simp [List.find?] at hfind
  | cons s rest ih =>
    by_cases h : s.id = id
    · rw [List.find?] at hfind
      simp only [h, beq_self_eq_true] at hfind
      rw [updateFirstSession, if_pos h]
      rw [List.find?]
      have hfid : (f sess).id = id := by rw [hid, hsid]
      simp only [Option.some.injEq] at hfind
      rw [← hfind] at hfid ⊢
      simp [hfid]
    · rw [List.find?] at hfind
      have hb : (s.id == id) = false := by simp [h]
      simp only [hb] at hfind
      rw [updateFirstSession, if_neg h, List.find?]
      simp only [hb]
      exact ih hfind

theorem find?_sessions_append {l : List CashSession} {s0 : CashSession}
    {id : String} (h : ∀ s ∈ l, s.id ≠ id) (h0 : s0.id = id) :
    (l ++ [s0]).find? (fun s => s.id == id) = some s0 := by
  induction l with
  | nil => simp [List.find?, h0]
  | cons s rest ih =>
    have hs : s.id ≠ id := h s (by simp)
    rw [List.cons_append, List.find?]
    have hb : (s.id == id) = false := by simp [hs]
    simp only [hb]
    exact ih (fun x hx => h x (List.mem_cons_of_mem _ hx))

/-- Session ids generated by `open` are nonempty. -/
theorem csId_ne_empty (gen : Nat) : s!"cs_{gen}" ≠ "" := by
  intro h
  have hlen := congrArg String.length h
  rw [String.length_append, String.length_append] at hlen
  have h3 : (toString "cs_").length = 3 := rfl
  have h0 : String.length "" = 0 := rfl
  omega

/-- The register pointer after `ensureCollections` never holds the empty
string. -/
theorem ensureCollectionsC_ptr_ne_empty {db : DB} {id : String}
    (h : (ensureCollectionsC db).caixa.currentSessionId = some id) : id ≠ "" := by
  unfold ensureCollectionsC at h
  revert h
  cases hcur : db.caixa.currentSessionId with
  | none => simp
  | some s' =>
    simp only
    by_cases hse : s' = ""
    · simp [hse]
    · simp only [if_neg hse, Option.some.injEq]
      intro hh
      rw [← hh]
      exact hse

/-- A session the register points at: its id is nonempty and it is the first
of its id in `cashSessions`. -/
theorem currentSession_find {db : DB} {sess : CashSession}
    (hs : currentSession db = some sess) :
    sess.id ≠ "" ∧ db.cashSessions.find? (fun s => s.id == sess.id) = some sess := by
  unfold currentSession at hs
  cases hid : (ensureCollectionsC db).caixa.currentSessionId with
  | none => rw [hid] at hs; cases hs
  | some id =>
    rw [hid] at hs
    have hpred := List.find?_some hs
    have hsid : sess.id = id := by simpa using hpred
    refine ⟨?_, ?_⟩
    · rw [hsid]
      exact ensureCollectionsC_ptr_ne_empty hid
    · rw [hsid]
      exact hs

/-- `ensureCollections` keeps a nonempty register pointer. -/
theorem ensureCollectionsC_ptr_some {db : DB} {id : String}
    (h : db.caixa.currentSessionId = some id) (hne : id ≠ "") :
    (ensureCollectionsC db).caixa.currentSessionId = some id := by
  simp [ensureCollectionsC, h, hne]

/-- `currentSession` after a fresh `dbCore.get()` of a store whose register
points (with a nonempty id) at a session present in `cashSessions`. -/
theorem currentSession_store (t : String) {σ : Store} {id : String} {sess : CashSession}
    (hptr : σ.db.caixa.currentSessionId = some id) (hne : id ≠ "")
    (hfind : σ.db.cashSessions.find? (fun s => s.id == id) = some sess) :
    currentSession (ensureCollectionsC (dbGet t σ)) = some sess := by
  have h1 : (dbGet t σ).caixa.currentSessionId = some id := hptr
  have h2 := ensureCollectionsC_ptr_some h1 hne
  have h3 := ensureCollectionsC_ptr_some h2 hne
  unfold currentSession
  rw [h3]
  show (ensureCollectionsC (dbGet t σ)).cashSessions.find? (fun s => s.id == id) = some sess
  exact hfind

/-- What `ops_cashier.open` does when the register is closed: push a fresh
session with `expected_c = initial_c` and point the register at it. -/
theorem cashOpen_spec (t : String) (gen : Nat) (σ : Store) (init : Int) (note : String)
    (h : σ.db.caixa.aberto = false) :
    cashOpen t gen σ init note
      = ({ ok := true, sessionId := some s!"cs_{gen}" },
         dbSafeSave t { (ensureCollectionsC (dbGet t σ)) with
           cashSessions := σ.db.cashSessions ++
             [{ id := s!"cs_{gen}", openedAtIso := t, initial_c := init,
                expected_c := init, note := note, movements := [] }]
           caixa := { aberto := true, currentSessionId := some s!"cs_{gen}" } },
         gen + 1) := by
  have h' : (ensureCollectionsC (dbGet t σ)).caixa.aberto = false := h
  simp only [cashOpen, h']
  rfl

/-- What `ops_cashier.close` does when a session is open: stamp the session
with `counted_c` and `diff_c = counted_c - expected_c`, clear the register
pointer, and report those fields. -/
theorem cashClose_spec (t : String) (σ : Store) (counted : Int) (note : String)
    (sess : CashSession)
    (hs : currentSession (ensureCollectionsC (dbGet t σ)) = some sess) :
    cashClose t σ counted note
      = ({ ok := true, sessionId := some sess.id, expected_c := some sess.expected_c,
           counted_c := some counted, diff_c := some (counted - sess.expected_c) },
         dbSafeSave t { (ensureCollectionsC (dbGet t σ)) with
           cashSessions := updateFirstSession sess.id
             (fun s => { s with
               closedAtIso := some t
               counted_c := some counted
               diff_c := some (counted - sess.expected_c)
               note := (if note ≠ "" then note else s.note) })
             σ.db.cashSessions
           caixa := { aberto := false, currentSessionId := none } }) := by
  simp only [cashClose, hs]
  rfl

/-- What `ops_cashier.addMovement` does when a session is open: appends the
typed movement to that session, bumps its `expected_c`, keeps the register
pointer, reports the new expectation. -/
theorem cashAddMovement_spec (t : String) (gen : Nat) (σ : Store) (ty : String)
    (amt : Int) (sess : CashSession)
    (hs : currentSession (ensureCollectionsC (dbGet t σ)) = some sess) :
    cashAddMovement t gen σ ty amt
      = ({ ok := true, movementId := some s!"cm_{gen}",
           expected_c := some (sess.expected_c + amt) },
         dbSafeSave t { (ensureCollectionsC (dbGet t σ)) with
           cashSessions := updateFirstSession sess.id
             (fun s => { s with
               movements := s.movements ++ [⟨s!"cm_{gen}", t, ty, amt⟩]
               expected_c := sess.expected_c + amt })
             σ.db.cashSessions },
         gen + 1) := by
  simp only [cashAddMovement, hs]
  rfl

/-- The session stored by `ops_cashier.addMovement` for the open session. -/
theorem cashAddMovement_sessionAfter (t : String) (gen : Nat) (σ : Store)
    (ty : String) (amt : Int) (sess : CashSession)
    (hs : currentSession (ensureCollectionsC (dbGet t σ)) = some sess) :
    sessionAfter (cashAddMovement t gen σ ty amt).2.1 sess.id
      = some { sess with
          movements := sess.movements ++ [⟨s!"cm_{gen}", t, ty, amt⟩]
          expected_c := sess.expected_c + amt } := by
  have hfind : σ.db.cashSessions.find? (fun s => s.id == sess.id) = some sess :=
    (currentSession_find hs).2
  rw [cashAddMovement_spec t gen σ ty amt sess hs]
  show (normalizeDBT t _).cashSessions.find? _ = _
  rw [normalizeDBT_cashSessions]
  exact find?_updateFirstSession hfind rfl rfl

/-! ### C10 — forced movement signs -/

/-- C10: for every `amount_c`, with a session open the cashier wrappers force
the stored movement sign by type: `addSale`/`reinforce` store `venda`/
`reforco` movements of amount `|amount_c|` (non-negative, so `expected_c`
never decreases), while `addVoid`/`withdraw` store `estorno`/`sangria`
movements of amount `-|amount_c|` (non-positive, so `expected_c` never
increases). -/
theorem cash_sign_convention (t : String) (gen : Nat) (σ : Store) (a : Int)
    (sess : CashSession)
    (hs : currentSession (ensureCollectionsC (dbGet t σ)) = some sess) :
    (sessionAfter (cashAddSale t gen σ a).2.1 sess.id
        = some { sess with
            movements := sess.movements ++ [⟨s!"cm_{gen}", t, "venda", |a|⟩]
            expected_c := sess.expected_c + |a| }
      ∧ 0 ≤ |a| ∧ sess.expected_c ≤ sess.expected_c + |a|)
    ∧ (sessionAfter (cashAddVoid t gen σ a).2.1 sess.id
        = some { sess with
            movements := sess.movements ++ [⟨s!"cm_{gen}", t, "estorno", -|a|⟩]
            expected_c := sess.expected_c + -|a| }
      ∧ -|a| ≤ 0 ∧ sess.expected_c + -|a| ≤ sess.expected_c)
    ∧ (sessionAfter (cashWithdraw t gen σ a).2.1 sess.id
        = some { sess with
            movements := sess.movements ++ [⟨s!"cm_{gen}", t, "sangria", -|a|⟩]
            expected_c := sess.expected_c + -|a| }
      ∧ -|a| ≤ 0 ∧ sess.expected_c + -|a| ≤ sess.expected_c)
    ∧ (sessionAfter (cashReinforce t gen σ a).2.1 sess.id
        = some { sess with
            movements := sess.movements ++ [⟨s!"cm_{gen}", t, "reforco", |a|⟩]
            expected_c := sess.expected_c + |a| }
      ∧ 0 ≤ |a| ∧ sess.expected_c ≤ sess.expected_c + |a|) := by
  have habs : (0 : Int) ≤ |a| := abs_nonneg a
  refine ⟨⟨?_, habs, by omega⟩, ⟨?_, by omega, by omega⟩, ⟨?_, by omega, by omega⟩,
    ⟨?_, habs, by omega⟩⟩
  · exact cashAddMovement_sessionAfter t gen σ "venda" |a| sess hs
  · exact cashAddMovement_sessionAfter t gen σ "estorno" (-|a|) sess hs
  · exact cashAddMovement_sessionAfter t gen σ "sangria" (-|a|) sess hs
  · exact cashAddMovement_sessionAfter t gen σ "reforco" |a| sess hs

/-- C10 witness: a freshly opened register (initial 7) with `addSale` of
`-500` stores `venda +500`; `addVoid` of `500` stores `estorno -500`. -/
theorem cash_sign_convention_witness :
    sessionAfter (cashAddSale "T" 1 (cashOpen "T" 0 ⟨{}⟩ 7 "").2.1 (-500)).2.1 "cs_0"
      = some { id := "cs_0", openedAtIso := "T", initial_c := 7, expected_c := 7 + 500,
               movements := [⟨"cm_1", "T", "venda", 500⟩] }
    ∧ sessionAfter (cashAddVoid "T" 1 (cashOpen "T" 0 ⟨{}⟩ 7 "").2.1 500).2.1 "cs_0"
      = some { id := "cs_0", openedAtIso := "T", initial_c := 7, expected_c := 7 + -500,
               movements := [⟨"cm_1", "T", "estorno", -500⟩] } := by
  constructor
  · have h := (cash_sign_convention "T" 1 (cashOpen "T" 0 ⟨{}⟩ 7 "").2.1 (-500)
      { id := "cs_0", openedAtIso := "T", initial_c := 7, expected_c := 7 }
      (by decide)).1.1
    rw [h]
    decide
  · have h := (cash_sign_convention "T" 1 (cashOpen "T" 0 ⟨{}⟩ 7 "").2.1 500
      { id := "cs_0", openedAtIso := "T", initial_c := 7, expected_c := 7 }
      (by decide)).2.1.1
    rw [h]
    decide

/-- A failing `setItem` throws the environment's failure message. -/
theorem ssetItem_error_msg {env : StorageEnv} {k v : String} {e : String}
    (h : ssetItem env k v = .error e) : e = env.failMsg := by
  unfold ssetItem at h
  rcases hf : env.failAfter with _ | (_ | n) <;> rw [hf] at h
  · cases h
  · cases h
    rfl
  · cases h

/-- A successful `setItem` keeps the failure message. -/
theorem ssetItem_ok_msg {env : StorageEnv} {k v : String} {env' : StorageEnv}
    (h : ssetItem env k v = .ok env') : env'.failMsg = env.failMsg := by
  unfold ssetItem at h
  rcases hf : env.failAfter with _ | (_ | n) <;> rw [hf] at h
  · cases h
    rfl
  · cases h
  · cases h
    rfl

/-- `setItem` fails exactly at an exhausted injection point. -/
theorem ssetItem_error_failAfter {env : StorageEnv} {k v : String} {e : String}
    (h : ssetItem env k v = .error e) : env.failAfter = some 0 := by
  cases hf : env.failAfter with
  | none =>
    unfold ssetItem at h
    rw [hf] at h
    cases h
  | some n =>
    cases n with
    | zero => rfl
    | succ m =>
      unfold ssetItem at h
      rw [hf] at h
      cases h

/-- A successful `setItem` keeps the absence of failure injection. -/
theorem ssetItem_ok_failAfter {env : StorageEnv} {k v : String} {env' : StorageEnv}
    (h : ssetItem env k v = .ok env') (hfa : env.failAfter = none) :
    env'.failAfter = none := by
  unfold ssetItem at h
  rw [hfa] at h
  cases h
  rfl

/-- `removeItem` keeps the failure message. -/
theorem sremoveItem_failMsg (env : StorageEnv) (k : String) :
    (sremoveItem env k).failMsg = env.failMsg := rfl

/-- `removeItem` keeps the injection point. -/
theorem sremoveItem_failAfter (env : StorageEnv) (k : String) :
    (sremoveItem env k).failAfter = env.failAfter := rfl

/-- A failing `createSnapshot` throws the environment's failure message. -/
theorem createSnapshot_error_msg {env : StorageEnv} {key : String} {db : JVal}
    {m : Nat} {id t e : String}
    (h : createSnapshot env key db m id t = .error e) : e = env.failMsg := by
  simp only [createSnapshot] at h
  rcases hs : ssetItem env (snapKey key)
      (stringifyC (jarr (snapshotList (loadSnapshots env key) (mkSnapshot id t db) m)))
    with e' | env' <;> rw [hs] at h
  · cases h
    exact ssetItem_error_msg hs
  · cases h

/-- `createSnapshot` fails only at an exhausted injection point. -/
theorem createSnapshot_error_failAfter {env : StorageEnv} {key : String} {db : JVal}
    {m : Nat} {id t e : String}
    (h : createSnapshot env key db m id t = .error e) : env.failAfter = some 0 := by
  simp only [createSnapshot] at h
  rcases hs : ssetItem env (snapKey key)
      (stringifyC (jarr (snapshotList (loadSnapshots env key) (mkSnapshot id t db) m)))
    with e' | env' <;> rw [hs] at h
  · exact ssetItem_error_failAfter hs
  · cases h

/-! ### C7 — `safeSave` totality and the `storage_error` boundary -/

/-- C7: `safeSave` is total across its boundary: whenever the result is
`ok := false` (any storage failure on the normalize/write/snapshot path),
recovery mode is set with reason `storage_error`, the failing message, and
the current timestamp, and the result carries that message; whenever the
result is `ok := true` it carries the normalisation warnings and the
snapshot flag and leaves recovery untouched; and with no injected failure
the save always succeeds, snapshotting exactly when forced or the cooldown
has elapsed. -/
theorem safeSave_total_contract (st : DbCoreState) (env : StorageEnv) (db : JVal)
    (opts : SaveOpts) (t : String) (now : Int) (snapId : String) :
    ((safeSave st env db opts t now snapId).1.ok = false →
       (safeSave st env db opts t now snapId).2.1.recovery
           = ⟨true, "storage_error", some env.failMsg, some t⟩
       ∧ (safeSave st env db opts t now snapId).1.warnings = [env.failMsg])
    ∧ ((safeSave st env db opts t now snapId).1.ok = true →
       (safeSave st env db opts t now snapId).1.warnings
           = (if opts.skipNormalize then st.lastNormWarnings else (normalizeDB t db).2)
       ∧ (safeSave st env db opts t now snapId).2.1.recovery = st.recovery)
    ∧ (env.failAfter = none →
       (safeSave st env db opts t now snapId).1.ok = true
       ∧ (safeSave st env db opts t now snapId).1.snapshotCreated
           = (opts.forceSnapshot || decide (now - st.lastSnapshotAt ≥ st.cooldownMs))) := by
  rcases h1 : ssetItem env (st.storageKey ++ "__tmp")
      (stringifyC (if opts.skipNormalize then db else (normalizeDB t db).1))
    with e1 | env1
  · have hspec : safeSave st env db opts t now snapId
        = ({ ok := false, warnings := [e1], snapshotCreated := false },
           { st with
             recovery := ⟨true, "storage_error", some e1, some t⟩
             lastNormWarnings :=
               (if opts.skipNormalize then st.lastNormWarnings else (normalizeDB t db).2) },
           env) := by
      simp only [safeSave, h1]
    refine ⟨fun _ => ?_, fun hok => ?_, fun hfa => ?_⟩
    · rw [hspec, ssetItem_error_msg h1]
      exact ⟨rfl, rfl⟩
    · rw [hspec] at hok
      exact absurd hok Bool.false_ne_true
    · rw [ssetItem_error_failAfter h1] at hfa
      cases hfa
  · rcases h2 : ssetItem env1 st.storageKey
        ((sgetItem env1 (st.storageKey ++ "__tmp")).getD "null")
      with e2 | env2
    · have hspec : safeSave st env db opts t now snapId
          = ({ ok := false, warnings := [e2], snapshotCreated := false },
             { st with
               recovery := ⟨true, "storage_error", some e2, some t⟩
               lastNormWarnings :=
                 (if opts.skipNormalize then st.lastNormWarnings else (normalizeDB t db).2) },
             env1) := by
        simp only [safeSave, h1, h2]
      refine ⟨fun _ => ?_, fun hok => ?_, fun hfa => ?_⟩
      · rw [hspec, ssetItem_error_msg h2, ssetItem_ok_msg h1]
        exact ⟨rfl, rfl⟩
      · rw [hspec] at hok
        exact absurd hok Bool.false_ne_true
      · have ha := ssetItem_error_failAfter h2
        rw [ssetItem_ok_failAfter h1 hfa] at ha
        cases ha
    · rcases hc : (opts.forceSnapshot || decide (now - st.lastSnapshotAt ≥ st.cooldownMs))
        with _ | _
      · have hspec : safeSave st env db opts t now snapId
            = ({ ok := true,
                 warnings :=
                   (if opts.skipNormalize then st.lastNormWarnings else (normalizeDB t db).2),
                 snapshotCreated := false },
               { st with
                 lastSnapshotAt := st.lastSnapshotAt
                 lastNormWarnings :=
                   (if opts.skipNormalize then st.lastNormWarnings else (normalizeDB t db).2) },
               sremoveItem env2 (st.storageKey ++ "__tmp")) := by
          simp only [safeSave, h1, h2, hc, Bool.false_eq_true, if_false]
        refine ⟨fun hok => ?_, fun _ => ?_, fun _ => ?_⟩
        · rw [hspec] at hok
          exact absurd hok (fun hh => Bool.false_ne_true hh.symm)
        · rw [hspec]
          exact ⟨rfl, rfl⟩
        · rw [hspec]
          exact ⟨rfl, rfl⟩
      · rcases h3 : createSnapshot (sremoveItem env2 (st.storageKey ++ "__tmp"))
            st.storageKey
            (if opts.skipNormalize then db else (normalizeDB t db).1)
            st.maxSnapshots snapId t
          with e3 | r3
        · have hspec : safeSave st env db opts t now snapId
              = ({ ok := false, warnings := [e3], snapshotCreated := false },
                 { st with
                   recovery := ⟨true, "storage_error", some e3, some t⟩
                   lastNormWarnings :=
                     (if opts.skipNormalize then st.lastNormWarnings else (normalizeDB t db).2) },
                 sremoveItem env2 (st.storageKey ++ "__tmp")) := by
            simp only [safeSave, h1, h2, hc, eq_self_iff_true, if_true, h3]
          refine ⟨fun _ => ?_, fun hok => ?_, fun hfa => ?_⟩
          · have hm := createSnapshot_error_msg h3
            rw [sremoveItem_failMsg, ssetItem_ok_msg h2, ssetItem_ok_msg h1] at hm
            rw [hspec, hm]
            exact ⟨rfl, rfl⟩
          · rw [hspec] at hok
            exact absurd hok Bool.false_ne_true
          · have hfa3 := createSnapshot_error_failAfter h3
            rw [sremoveItem_failAfter] at hfa3
            rw [ssetItem_ok_failAfter h2 (ssetItem_ok_failAfter h1 hfa)] at hfa3
            cases hfa3
        · have hspec : safeSave st env db opts t now snapId
              = ({ ok := true,
                   warnings :=
                     (if opts.skipNormalize then st.lastNormWarnings else (normalizeDB t db).2),
                   snapshotCreated := true },
                 { st with
                   lastSnapshotAt := now
                   lastNormWarnings :=
                     (if opts.skipNormalize then st.lastNormWarnings else (normalizeDB t db).2) },
                 r3.2) := by
            simp only [safeSave, h1, h2, hc, eq_self_iff_true, if_true, h3]
          refine ⟨fun hok => ?_, fun _ => ?_, fun _ => ?_⟩
          · rw [hspec] at hok
            exact absurd hok (fun hh => Bool.false_ne_true hh.symm)
          · rw [hspec]
            exact ⟨rfl, rfl⟩
          · rw [hspec]
            exact ⟨rfl, rfl⟩

/-- C7 witness: on the empty storage a first-write failure sets recovery
`storage_error` with the quota message; without failure injection the save
succeeds and creates a snapshot (cooldown elapsed). -/
theorem safeSave_total_contract_witness :
    (safeSave {} ⟨[], some 0, "QuotaFail"⟩ (jobj []) {} "T" 5000 "s0").1.ok = false
    ∧ (safeSave {} ⟨[], some 0, "QuotaFail"⟩ (jobj []) {} "T" 5000 "s0").2.1.recovery
        = ⟨true, "storage_error", some "QuotaFail", some "T"⟩
    ∧ (safeSave {} ⟨[], some 0, "QuotaFail"⟩ (jobj []) {} "T" 5000 "s0").1.warnings
        = ["QuotaFail"]
    ∧ (safeSave {} ⟨[], none, "x"⟩ (jobj []) {} "T" 5000 "s0").1.ok = true
    ∧ (safeSave {} ⟨[], none, "x"⟩ (jobj []) {} "T" 5000 "s0").1.snapshotCreated = true := by
  have hF := safeSave_total_contract {} ⟨[], some 0, "QuotaFail"⟩ (jobj []) {} "T" 5000 "s0"
  have hS := safeSave_total_contract {} ⟨[], none, "x"⟩ (jobj []) {} "T" 5000 "s0"
  refine ⟨by decide, (hF.1 (by decide)).1, (hF.1 (by decide)).2, (hS.2.2 rfl).1, ?_⟩
  have h := (hS.2.2 rfl).2
  rw [h]
  decide

/-! ### C5 — a full cash-session scenario and the `close` contract -/

/-- C5: starting from a store with the register closed (and no stale session
carrying the fresh id), `open` with `initial_c = 1000` then `addSale` of `500`
reports `expected_c = 1500`; `close` with `counted_c = 1500` reports
`expected_c = 1500` and `diff_c = 0`, while `close` with `counted_c = 1400`
reports `diff_c = -100`; and for every `counted_c`, `close` records it on the
session, computes `diff_c = counted_c - expected_c`, and clears the
open-session pointer. -/
theorem cash_session_scenario (t1 t2 t3 : String) (gen : Nat) (σ : Store)
    (note : String) (counted : Int)
    (hopen : σ.db.caixa.aberto = false)
    (hfresh : ∀ s ∈ σ.db.cashSessions, s.id ≠ s!"cs_{gen}") :
    (cashAddSale t2 (gen+1) (cashOpen t1 gen σ 1000 note).2.1 500).1.expected_c
        = some 1500
    ∧ (cashClose t3
          (cashAddSale t2 (gen+1) (cashOpen t1 gen σ 1000 note).2.1 500).2.1
          1500 "").1.expected_c = some 1500
    ∧ (cashClose t3
          (cashAddSale t2 (gen+1) (cashOpen t1 gen σ 1000 note).2.1 500).2.1
          1500 "").1.diff_c = some 0
    ∧ (cashClose t3
          (cashAddSale t2 (gen+1) (cashOpen t1 gen σ 1000 note).2.1 500).2.1
          1400 "").1.diff_c = some (-100)
    ∧ (cashClose t3
          (cashAddSale t2 (gen+1) (cashOpen t1 gen σ 1000 note).2.1 500).2.1
          counted "").1.counted_c = some counted
    ∧ (cashClose t3
          (cashAddSale t2 (gen+1) (cashOpen t1 gen σ 1000 note).2.1 500).2.1
          counted "").1.diff_c = some (counted - 1500)
    ∧ (cashClose t3
          (cashAddSale t2 (gen+1) (cashOpen t1 gen σ 1000 note).2.1 500).2.1
          counted "").2.db.caixa = { aberto := false, currentSessionId := none }
    ∧ sessionAfter
        (cashClose t3
          (cashAddSale t2 (gen+1) (cashOpen t1 gen σ 1000 note).2.1 500).2.1
          counted "").2 s!"cs_{gen}"
        = some { id := s!"cs_{gen}", openedAtIso := t1, closedAtIso := some t3,
                 initial_c := 1000, expected_c := 1500, counted_c := some counted,
                 diff_c := some (counted - 1500), note := note,
                 movements := [⟨s!"cm_{gen+1}", t2, "venda", 500⟩] } := by
  have hne := csId_ne_empty gen
  have habs : |(500 : Int)| = 500 := by norm_num
  have hσ1 := cashOpen_spec t1 gen σ 1000 note hopen
  have hptr1 : ((cashOpen t1 gen σ 1000 note).2.1).db.caixa.currentSessionId
      = some s!"cs_{gen}" := by
    rw [hσ1]
    rfl
  have hfind1 : ((cashOpen t1 gen σ 1000 note).2.1).db.cashSessions.find?
        (fun s => s.id == s!"cs_{gen}")
      = some { id := s!"cs_{gen}", openedAtIso := t1, initial_c := 1000,
               expected_c := 1000, note := note, movements := [] } := by
    rw [hσ1]
    exact find?_sessions_append hfresh rfl
  have hcur1 := currentSession_store t2 hptr1 hne hfind1
  have hAS : cashAddSale t2 (gen+1) (cashOpen t1 gen σ 1000 note).2.1 500
      = cashAddMovement t2 (gen+1) (cashOpen t1 gen σ 1000 note).2.1 "venda" 500 := by
    unfold cashAddSale
    rw [habs]
  have hσ2 := cashAddMovement_spec t2 (gen+1) (cashOpen t1 gen σ 1000 note).2.1
    "venda" 500 _ hcur1
  have hptr2 : ((cashAddSale t2 (gen+1) (cashOpen t1 gen σ 1000 note).2.1 500).2.1).db.caixa.currentSessionId
      = some s!"cs_{gen}" := by
    rw [hAS, hσ2]
    exact ensureCollectionsC_ptr_some hptr1 hne
  have hfind2 : ((cashAddSale t2 (gen+1) (cashOpen t1 gen σ 1000 note).2.1 500).2.1).db.cashSessions.find?
        (fun s => s.id == s!"cs_{gen}")
      = some { id := s!"cs_{gen}", openedAtIso := t1, initial_c := 1000,
               expected_c := 1000 + 500, note := note,
               movements := [⟨s!"cm_{gen+1}", t2, "venda", 500⟩] } := by
    rw [hAS, hσ2]
    exact find?_updateFirstSession hfind1 rfl rfl
  have hcur2 := currentSession_store t3 hptr2 hne hfind2
  refine ⟨?_, ?_, ?_, ?_, ?_, ?_, ?_, ?_⟩
  · rw [hAS, hσ2]
    rfl
  · rw [cashClose_spec t3 _ 1500 "" _ hcur2]
    rfl
  · rw [cashClose_spec t3 _ 1500 "" _ hcur2]
    rfl
  · rw [cashClose_spec t3 _ 1400 "" _ hcur2]
    rfl
  · rw [cashClose_spec t3 _ counted "" _ hcur2]
  · rw [cashClose_spec t3 _ counted "" _ hcur2]
    rfl
  · rw [cashClose_spec t3 _ counted "" _ hcur2]
    rfl
  · rw [cashClose_spec t3 _ counted "" _ hcur2]
    exact find?_updateFirstSession hfind2 rfl rfl

/-- C5 witness: the scenario run on the empty store with generator `0`. -/
theorem cash_session_scenario_witness :
    (cashAddSale "T2" 1 (cashOpen "T1" 0 ⟨{}⟩ 1000 "").2.1 500).1.expected_c
        = some 1500
    ∧ (cashClose "T3" (cashAddSale "T2" 1 (cashOpen "T1" 0 ⟨{}⟩ 1000 "").2.1 500).2.1
          1500 "").1.diff_c = some 0
    ∧ (cashClose "T3" (cashAddSale "T2" 1 (cashOpen "T1" 0 ⟨{}⟩ 1000 "").2.1 500).2.1
          1400 "").1.diff_c = some (-100)
    ∧ (cashClose "T3" (cashAddSale "T2" 1 (cashOpen "T1" 0 ⟨{}⟩ 1000 "").2.1 500).2.1
          1400 "").2.db.caixa = { aberto := false, currentSessionId := none } := by
  have h := cash_session_scenario "T1" "T2" "T3" 0 ⟨{}⟩ "" 1400 (by decide) (by decide)
  exact ⟨h.1, h.2.2.1, h.2.2.2.1, h.2.2.2.2.2.2.1⟩

theorem digitChar_isDigit {m : Nat} (h : m < 10) :
    isDigitC (Nat.digitChar m) = true := by
  interval_cases m <;> decide

theorem digitChar_toNat {m : Nat} (h : m < 10) :
    (Nat.digitChar m).toNat = '0'.toNat + m := by
  interval_cases m <;> decide

theorem natChars_ne_nil (n : Nat) : natChars n ≠ [] := by
  rw [natChars]
  split
  · simp
  · simp

theorem natChars_all_digits (n : Nat) : ∀ c ∈ natChars n, isDigitC c = true := by
  induction n using Nat.strong_induction_on with
  | _ n ih =>
    rw [natChars]
    split
    · intro c hc
      rw [List.mem_singleton] at hc
      subst hc
      exact digitChar_isDigit (by omega)
    · intro c hc
      rw [List.mem_append] at hc
      rcases hc with hc | hc
      · exact ih (n / 10) (Nat.div_lt_self (by omega) (by omega)) c hc
      · rw [List.mem_singleton] at hc
        subst hc
        exact digitChar_isDigit (Nat.mod_lt _ (by omega))

theorem natChars_foldl (n : Nat) :
    (natChars n).foldl (fun acc c => acc * 10 + (c.toNat - '0'.toNat)) 0 = n := by
  induction n using Nat.strong_induction_on with
  | _ n ih =>
    rw [natChars]
    split
    · rename_i h
      simp [List.foldl, digitChar_toNat h]
    · rename_i h
      rw [List.foldl_append]
      rw [ih (n / 10) (Nat.div_lt_self (by omega) (by omega))]
      simp [List.foldl, digitChar_toNat (Nat.mod_lt n (by omega))]
      omega

theorem toDigitsCore_spec :
    ∀ (fuel n : Nat) (ds : List Char), 0 < fuel → n < 10 ^ fuel →
      Nat.toDigitsCore 10 fuel n ds = natChars n ++ ds := by
  intro fuel
  induction fuel with
  | zero =>
    intro n ds hf h
    omega
  | succ f ih =>
    intro n ds hf h
    rw [Nat.toDigitsCore]
    by_cases h0 : n / 10 = 0
    · rw [if_pos h0]
      have hn : n < 10 := by omega
      rw [natChars, dif_pos hn, Nat.mod_eq_of_lt hn]
      rfl
    · have hn10 : 10 ≤ n := by
        rcases Nat.lt_or_ge n 10 with hlt | hge
        · exact absurd (Nat.div_eq_of_lt hlt) h0
        · exact hge
      have hf1 : 0 < f := by
        rcases Nat.eq_zero_or_pos f with h9 | h9
        · subst h9
          rw [pow_one] at h
          omega
        · exact h9
      rw [if_neg h0]
      rw [ih (n / 10) _ hf1 (by
        rw [Nat.div_lt_iff_lt_mul (by omega)]
        calc n < 10 ^ (f + 1) := h
        _ = 10 ^ f * 10 := by rw [Nat.pow_succ])]
      conv_rhs => rw [natChars]
      rw [dif_neg (by omega), List.append_assoc]
      rfl

theorem repr_toList (n : Nat) : (Nat.repr n).toList = natChars n := by
  show (Nat.toDigits 10 n).asString.toList = natChars n
  rw [Nat.toDigits]
  rw [toDigitsCore_spec (n + 1) n [] (by omega) (by
    calc n < 2 ^ n := Nat.lt_two_pow n
    _ ≤ 10 ^ n := Nat.pow_le_pow_left (by omega) n
    _ ≤ 10 ^ (n + 1) := Nat.pow_le_pow_right (by omega) (by omega))]
  rw [List.append_nil]
  rfl

theorem intRepr_toList (n : Int) :
    (toString n).toList
      = (match n with
         | Int.ofNat m => natChars m
         | Int.negSucc m => '-' :: natChars (m + 1)) := by
  match n with
  | Int.ofNat m =>
    show (Nat.repr m).toList = _
    rw [repr_toList]
  | Int.negSucc m =>
    show (("-" : String) ++ Nat.repr (m + 1)).toList = _
    rw [show (("-" : String) ++ Nat.repr (m + 1)).toList
        = '-' :: (Nat.repr (m + 1)).toList from rfl]
    rw [repr_toList]

theorem digitRun?_natChars (n : Nat) : digitRun? (natChars n) = some n := by
  obtain ⟨c, cs, hl⟩ := List.exists_cons_of_ne_nil (natChars_ne_nil n)
  unfold digitRun?
  rw [hl]
  have hall : (c :: cs).all isDigitC = true :=
    List.all_eq_true.mpr (fun x hx => natChars_all_digits n x (hl ▸ hx))
  show (if (c :: cs).all isDigitC then
      some ((c :: cs).foldl (fun acc ch => acc * 10 + (ch.toNat - ('0').toNat)) 0)
    else none) = some n
  rw [hall, if_pos rfl, ← hl, natChars_foldl]

theorem natChars_head (n : Nat) :
    ∃ c cs, natChars n = c :: cs ∧ isDigitC c = true := by
  obtain ⟨c, cs, hl⟩ := List.exists_cons_of_ne_nil (natChars_ne_nil n)
  exact ⟨c, cs, hl, natChars_all_digits n c (hl ▸ List.mem_cons_self c cs)⟩

theorem takeWhile_append_all {p : Char → Bool} {xs ys : List Char}
    (hxs : ∀ x ∈ xs, p x = true)
    (hhd : ∀ c, ys.head? = some c → p c = false) :
    (xs ++ ys).takeWhile p = xs := by
  induction xs with
  | nil =>
    cases ys with
    | nil => rfl
    | cons c cs =>
      simp only [List.nil_append, List.takeWhile]
      rw [hhd c rfl]
  | cons x xs ih =>
    simp only [List.cons_append, List.takeWhile]
    rw [hxs x (List.mem_cons_self x xs)]
    show x :: List.takeWhile p (xs ++ ys) = x :: xs
    rw [ih (fun a ha => hxs a (List.mem_cons_of_mem x ha))]

theorem parseNum_render (n : Int) (rest : List Char)
    (hrest : noDigitHead rest = true) :
    parseNum ((toString n).toList ++ rest) = some (n, rest) := by
  have hhd : ∀ c, rest.head? = some c → isDigitC c = false := by
    intro c hc
    cases rest with
    | nil => cases hc
    | cons r rs =>
      have hr : (!isDigitC r) = true := hrest
      have hc' : some r = some c := hc
      have hrc := Option.some.inj hc'
      subst hrc
      cases hb : isDigitC r
      · rfl
      · rw [hb] at hr
        cases hr
  rw [intRepr_toList]
  match n with
  | Int.ofNat m =>
    obtain ⟨c, cs, hl, hdig⟩ := natChars_head m
    show parseNum (natChars m ++ rest) = some (Int.ofNat m, rest)
    rw [hl]
    show parseNum (c :: (cs ++ rest)) = some (Int.ofNat m, rest)
    have hcm : c ≠ '-' := by
      intro hh
      subst hh
      cases hdig
    unfold parseNum
    split
    · rename_i r heq
      injection heq with h1 h2
      exact absurd h1 hcm
    · rw [← List.cons_append, ← hl]
      rw [takeWhile_append_all (natChars_all_digits m) hhd]
      simp [digitRun?_natChars, List.drop_left]
  | Int.negSucc m =>
    show parseNum ('-' :: (natChars (m + 1) ++ rest)) = some (Int.negSucc m, rest)
    show (digitRun? ((natChars (m + 1) ++ rest).takeWhile isDigitC)).map
        (fun n => (-(n : Int),
          (natChars (m + 1) ++ rest).drop
            ((natChars (m + 1) ++ rest).takeWhile isDigitC).length))
      = some (Int.negSucc m, rest)
    rw [takeWhile_append_all (natChars_all_digits (m + 1)) hhd]
    simp [digitRun?_natChars, List.drop_left, Int.negSucc_eq]

theorem skipWs_append_ws {ws cs : List Char} (h : ∀ c ∈ ws, isWsC c = true) :
    skipWs (ws ++ cs) = skipWs cs := by
  induction ws with
  | nil => rfl
  | cons w ws ih =>
    rw [List.cons_append, skipWs, h w (List.mem_cons_self w ws)]
    exact ih (fun a ha => h a (List.mem_cons_of_mem w ha))

theorem skipWs_cons_not {c : Char} {cs : List Char} (h : isWsC c = false) :
    skipWs (c :: cs) = c :: cs := by
  rw [skipWs, h]
  simp

theorem nlIndent_ws (ind d : Nat) : ∀ c ∈ nlIndent ind d, isWsC c = true := by
  intro c hc
  unfold nlIndent at hc
  by_cases h0 : ind = 0
  · rw [if_pos h0] at hc
    cases hc
  · rw [if_neg h0] at hc
    rcases List.mem_cons.mp hc with h | h
    · subst h
      rfl
    · rw [List.eq_of_mem_replicate h]
      rfl

theorem colonPad_ws (ind : Nat) : ∀ c ∈ colonPad ind, isWsC c = true := by
  intro c hc
  unfold colonPad at hc
  by_cases h0 : ind = 0
  · rw [if_pos h0] at hc
    cases hc
  · rw [if_neg h0] at hc
    rw [List.mem_singleton] at hc
    subst hc
    rfl

theorem hexVal_toHexDigit {m : Nat} (h : m < 16) : hexVal (toHexDigit m) = some m := by
  interval_cases m <;> decide

theorem escapeChar_lit {c : Char} (h1 : c ≠ '"') (h2 : c ≠ '\\') (h3 : c ≠ '\n')
    (h4 : c ≠ '\t') (h5 : c ≠ '\r') (h6 : ¬ c.toNat < 32) :
    escapeChar c = [c] := by
  unfold escapeChar
  rw [if_neg h1, if_neg h2, if_neg h3, if_neg h4, if_neg h5,
    if_neg (by omega), if_neg (by omega), if_neg h6]

theorem parseStrBody_cons_lit (acc : List Char) (c : Char) (cs : List Char)
    (h1 : c ≠ '"') (h2 : c ≠ '\\') :
    parseStrBody acc (c :: cs) = parseStrBody (c :: acc) cs := by
  rw [parseStrBody.eq_def]
  split
  · rename_i heq
    injection heq with ha hb
    exact absurd ha h1
  · rename_i a b c' d r heq
    injection heq with ha hb
    exact absurd ha h2
  · rename_i e r heq
    injection heq with ha hb
    exact absurd ha h2
  · rename_i c' r heq
    injection heq with ha hb
    rw [ha, hb]
  · rename_i heq
    cases heq

theorem parseStrBody_render (cs : List Char) : ∀ (acc rest : List Char),
    parseStrBody acc (cs.flatMap escapeChar ++ '"' :: rest)
      = some (String.mk (acc.reverse ++ cs), rest) := by
  induction cs with
  | nil =>
    intro acc rest
    rw [List.flatMap_nil, List.nil_append, List.append_nil]
    rfl
  | cons c cs ih =>
    intro acc rest
    rw [List.flatMap_cons, List.append_assoc]
    have hfin : ∀ acc', parseStrBody acc' (cs.flatMap escapeChar ++ '"' :: rest)
        = some (String.mk (acc'.reverse ++ cs), rest) := fun acc' => ih acc' rest
    by_cases h1 : c = '"'
    · subst h1
      show parseStrBody ('"' :: acc) (cs.flatMap escapeChar ++ '"' :: rest) = _
      rw [hfin]
      simp
    · by_cases h2 : c = '\\'
      · subst h2
        show parseStrBody ('\\' :: acc) (cs.flatMap escapeChar ++ '"' :: rest) = _
        rw [hfin]
        simp
      · by_cases h3 : c = '\n'
        · subst h3
          show parseStrBody ('\n' :: acc) (cs.flatMap escapeChar ++ '"' :: rest) = _
          rw [hfin]
          simp
        · by_cases h4 : c = '\t'
          · subst h4
            show parseStrBody ('\t' :: acc) (cs.flatMap escapeChar ++ '"' :: rest) = _
            rw [hfin]
            simp
          · by_cases h5 : c = '\r'
            · subst h5
              show parseStrBody ('\r' :: acc) (cs.flatMap escapeChar ++ '"' :: rest) = _
              rw [hfin]
              simp
            · by_cases h8 : c.toNat = 8
              · have hesc : escapeChar c = ['\\', 'b'] := by
                  unfold escapeChar
                  rw [if_neg h1, if_neg h2, if_neg h3, if_neg h4, if_neg h5, if_pos h8]
                rw [hesc]
                show parseStrBody (Char.ofNat 8 :: acc)
                    (cs.flatMap escapeChar ++ '"' :: rest) = _
                rw [show Char.ofNat 8 = c from by rw [← h8, Char.ofNat_toNat]]
                rw [hfin]
                simp
              · by_cases h12 : c.toNat = 12
                · have hesc : escapeChar c = ['\\', 'f'] := by
                    unfold escapeChar
                    rw [if_neg h1, if_neg h2, if_neg h3, if_neg h4, if_neg h5,
                      if_neg h8, if_pos h12]
                  rw [hesc]
                  show parseStrBody (Char.ofNat 12 :: acc)
                      (cs.flatMap escapeChar ++ '"' :: rest) = _
                  rw [show Char.ofNat 12 = c from by rw [← h12, Char.ofNat_toNat]]
                  rw [hfin]
                  simp
                · by_cases h6 : c.toNat < 32
                  · have hesc : escapeChar c
                        = ['\\', 'u', '0', '0', toHexDigit (c.toNat / 16 % 16),
                           toHexDigit (c.toNat % 16)] := by
                      unfold escapeChar
                      rw [if_neg h1, if_neg h2, if_neg h3, if_neg h4, if_neg h5,
                        if_neg h8, if_neg h12, if_pos h6]
                    rw [hesc]
                    show (match hexVal '0', hexVal '0',
                          hexVal (toHexDigit (c.toNat / 16 % 16)),
                          hexVal (toHexDigit (c.toNat % 16)) with
                       | some va, some vb, some vc, some vd =>
                         parseStrBody
                           (Char.ofNat (((va * 16 + vb) * 16 + vc) * 16 + vd) :: acc)
                           (cs.flatMap escapeChar ++ '"' :: rest)
                       | _, _, _, _ => none)
                      = some (String.mk (acc.reverse ++ c :: cs), rest)
                    rw [hexVal_toHexDigit (Nat.mod_lt _ (by omega)),
                        hexVal_toHexDigit (Nat.mod_lt _ (by omega))]
                    show parseStrBody
                        (Char.ofNat (((0 * 16 + 0) * 16 + c.toNat / 16 % 16) * 16
                          + c.toNat % 16) :: acc)
                        (cs.flatMap escapeChar ++ '"' :: rest) = _
                    rw [show (((0 * 16 + 0) * 16 + c.toNat / 16 % 16) * 16
                        + c.toNat % 16) = c.toNat from by omega]
                    rw [Char.ofNat_toNat]
                    rw [hfin]
                    simp
                  · rw [escapeChar_lit h1 h2 h3 h4 h5 h6]
                    rw [List.singleton_append]
                    rw [parseStrBody_cons_lit acc c _ h1 h2]
                    rw [hfin]
                    simp

theorem fuelV_pos (v : JVal) : 1 ≤ fuelV v := by
  cases v <;> simp [fuelV]

theorem fuelArr_pos (xs : List JVal) : 1 ≤ fuelArr xs := by
  cases xs <;> simp [fuelArr]

theorem fuelObj_pos (fs : List (String × JVal)) : 1 ≤ fuelObj fs := by
  cases fs with
  | nil => simp [fuelObj]
  | cons f fs =>
    obtain ⟨k, v⟩ := f
    simp [fuelObj]

theorem skipWs_idem (cs : List Char) : skipWs (skipWs cs) = skipWs cs := by
  induction cs with
  | nil => rfl
  | cons c cs ih =>
    cases h : isWsC c
    · rw [skipWs_cons_not h, skipWs_cons_not h]
    · rw [show skipWs (c :: cs) = skipWs cs from by simp [skipWs, h], ih]

theorem parseVal_succ_skipWs (f : Nat) (cs : List Char) :
    parseVal (f + 1) cs = parseVal (f + 1) (skipWs cs) := by
  simp only [parseVal]
  rw [skipWs_idem]

theorem parseVal_drop_ws (f : Nat) (ws X : List Char)
    (hws : ∀ c ∈ ws, isWsC c = true) :
    parseVal (f + 1) (ws ++ X) = parseVal (f + 1) X := by
  rw [parseVal_succ_skipWs, skipWs_append_ws hws, ← parseVal_succ_skipWs]

theorem natChars_head_digitChar (n : Nat) :
    ∃ m cs, m < 10 ∧ natChars n = Nat.digitChar m :: cs := by
  induction n using Nat.strong_induction_on with
  | _ n ih =>
    rw [natChars]
    split
    · rename_i h
      exact ⟨n, [], h, rfl⟩
    · rename_i h
      obtain ⟨m, cs, hm, hcs⟩ := ih (n / 10) (Nat.div_lt_self (by omega) (by omega))
      exact ⟨m, cs ++ [Nat.digitChar (n % 10)], hm, by rw [hcs]; rfl⟩

theorem digitChar_not_ws {m : Nat} (h : m < 10) :
    isWsC (Nat.digitChar m) = false := by
  interval_cases m <;> decide

theorem digitChar_ne_rbrack {m : Nat} (h : m < 10) :
    Nat.digitChar m ≠ ']' := by
  interval_cases m <;> decide

theorem parseVal_succ_quote (f : Nat) (R : List Char) :
    parseVal (f + 1) ('"' :: R)
      = (parseStrBody [] R).map (fun p => (jstr p.1, p.2)) := rfl

theorem parseVal_succ_minus (f : Nat) (R : List Char) :
    parseVal (f + 1) ('-' :: R)
      = (parseNum ('-' :: R)).map (fun p => (jnum p.1, p.2)) := rfl

theorem parseVal_succ_digitChar (f m : Nat) (hm : m < 10) (R : List Char) :
    parseVal (f + 1) (Nat.digitChar m :: R)
      = (parseNum (Nat.digitChar m :: R)).map (fun p => (jnum p.1, p.2)) := by
  interval_cases m <;> rfl

theorem parseVal_succ_lbrack (f : Nat) (R : List Char) :
    parseVal (f + 1) ('[' :: R)
      = (match skipWs R with
         | ']' :: r' => some (jarr [], r')
         | r' => (parseElems f r').map (fun p => (jarr p.1, p.2))) := rfl

theorem parseVal_succ_lbrace (f : Nat) (R : List Char) :
    parseVal (f + 1) ('{' :: R)
      = (match skipWs R with
         | '}' :: r' => some (jobj [], r')
         | r' => (parseMembers f r').map (fun p => (jobj p.1, p.2))) := rfl

/-- Head shape of a rendered value: a non-whitespace character that is not a
closing bracket. -/
theorem renderV_head (ind d : Nat) (v : JVal) :
    ∃ c cs, renderV ind d v = c :: cs ∧ isWsC c = false ∧ c ≠ ']' := by
  cases v with
  | jnull => exact ⟨'n', _, rfl, by decide, by decide⟩
  | jbool b =>
    cases b
    · exact ⟨'f', _, rfl, by decide, by decide⟩
    · exact ⟨'t', _, rfl, by decide, by decide⟩
  | jnum n =>
    match n with
    | Int.ofNat m =>
      obtain ⟨k, cs, hk, hcs⟩ := natChars_head_digitChar m
      refine ⟨Nat.digitChar k, cs, ?_, digitChar_not_ws hk, digitChar_ne_rbrack hk⟩
      show (toString (Int.ofNat m)).toList = _
      rw [intRepr_toList]
      exact hcs
    | Int.negSucc m =>
      refine ⟨'-', natChars (m + 1), ?_, by decide, by decide⟩
      show (toString (Int.negSucc m)).toList = _
      rw [intRepr_toList]
  | jstr s => exact ⟨'"', _, rfl, by decide, by decide⟩
  | jarr xs =>
    cases xs
    · exact ⟨'[', _, rfl, by decide, by decide⟩
    · exact ⟨'[', _, rfl, by decide, by decide⟩
  | jobj fs =>
    cases fs
    · exact ⟨'{', _, rfl, by decide, by decide⟩
    · rename_i f fs
      obtain ⟨k, v⟩ := f
      exact ⟨'{', _, rfl, by decide, by decide⟩

/-- Nothing that follows a rendered array element starts with a digit. -/
theorem noDigitHead_arrTail (ind d pd : Nat) (xs : List JVal) (rest : List Char) :
    noDigitHead (renderArrTail ind d xs ++ (nlIndent ind pd ++ (']' :: rest)))
      = true := by
  cases xs with
  | nil =>
    rw [show renderArrTail ind d [] = [] from rfl, List.nil_append]
    unfold nlIndent
    by_cases h0 : ind = 0
    · rw [if_pos h0]
      rfl
    · rw [if_neg h0]
      rfl
  | cons y ys => rfl

/-- Nothing that follows a rendered object member starts with a digit. -/
theorem noDigitHead_objTail (ind d pd : Nat) (fs : List (String × JVal))
    (rest : List Char) :
    noDigitHead (renderObjTail ind d fs ++ (nlIndent ind pd ++ ('}' :: rest)))
      = true := by
  cases fs with
  | nil =>
    rw [show renderObjTail ind d [] = [] from rfl, List.nil_append]
    unfold nlIndent
    by_cases h0 : ind = 0
    · rw [if_pos h0]
      rfl
    · rw [if_neg h0]
      rfl
  | cons f fs =>
    obtain ⟨k, v⟩ := f
    rfl

theorem noDigitHead_nlIndent (ind pd : Nat) (c : Char) (rest : List Char)
    (hc : isDigitC c = false) :
    noDigitHead (nlIndent ind pd ++ (c :: rest)) = true := by
  unfold nlIndent
  by_cases h0 : ind = 0
  · rw [if_pos h0, List.nil_append]
    show (!isDigitC c) = true
    rw [hc]
    rfl
  · rw [if_neg h0]
    rfl

mutual
theorem parseVal_render (ind d fuel : Nat) (v : JVal) (ws rest : List Char)
    (hws : ∀ c ∈ ws, isWsC c = true) (hfuel : fuelV v ≤ fuel)
    (hrest : noDigitHead rest = true) :
    parseVal fuel (ws ++ (renderV ind d v ++ rest)) = some (v, rest) := by
  cases fuel with
  | zero => exact absurd hfuel (by have := fuelV_pos v; omega)
  | succ f =>
    rw [parseVal_drop_ws f ws _ hws]
    cases v with
    | jnull => rfl
    | jbool b => cases b <;> rfl
    | jnum n =>
      match n with
      | Int.ofNat m =>
        obtain ⟨k, cs', hk, hl⟩ := natChars_head_digitChar m
        have hr : renderV ind d (jnum (Int.ofNat m)) = natChars m := by
          show (toString (Int.ofNat m)).toList = natChars m
          rw [intRepr_toList]
        rw [hr, hl, List.cons_append, parseVal_succ_digitChar f k hk]
        rw [← List.cons_append, ← hl]
        rw [show natChars m = (toString (Int.ofNat m)).toList from by
          rw [intRepr_toList]]
        rw [parseNum_render (Int.ofNat m) rest hrest]
        rfl
      | Int.negSucc m =>
        have hr : renderV ind d (jnum (Int.negSucc m)) = '-' :: natChars (m + 1) := by
          show (toString (Int.negSucc m)).toList = _
          rw [intRepr_toList]
        rw [hr, List.cons_append, parseVal_succ_minus]
        rw [← List.cons_append, ← hr]
        rw [show renderV ind d (jnum (Int.negSucc m))
            = (toString (Int.negSucc m)).toList from rfl]
        rw [parseNum_render (Int.negSucc m) rest hrest]
        rfl
    | jstr s =>
      have hq : renderV ind d (jstr s) ++ rest
          = '"' :: (s.toList.flatMap escapeChar ++ '"' :: rest) := by
        show renderStrL s ++ rest = _
        rw [renderStrL, List.cons_append, List.append_assoc]
        rfl
      rw [hq, parseVal_succ_quote, parseStrBody_render]
      rfl
    | jarr xs =>
      cases xs with
      | nil => rfl
      | cons x xs =>
        have hA : renderV ind d (jarr (x :: xs)) ++ rest
            = '[' :: (nlIndent ind (d + 1) ++ (renderV ind (d + 1) x
                ++ (renderArrTail ind (d + 1) xs
                  ++ (nlIndent ind d ++ (']' :: rest))))) := by
          show ('[' :: (nlIndent ind (d + 1) ++ renderV ind (d + 1) x
              ++ renderArrTail ind (d + 1) xs ++ nlIndent ind d ++ [']'])) ++ rest = _
          simp [List.append_assoc]
        rw [hA, parseVal_succ_lbrack]
        rw [skipWs_append_ws (nlIndent_ws ind (d + 1))]
        obtain ⟨c, cs', hl, hnws, hne⟩ := renderV_head ind (d + 1) x
        rw [hl, List.cons_append, skipWs_cons_not hnws]
        split
        · rename_i r' heq
          injection heq with hx hy
          exact absurd hx hne
        · rw [← List.cons_append, ← hl]
          have hE := parseElems_render ind (d + 1) d f x xs [] rest
            (by intro a ha; cases ha)
            (by simp [fuelV] at hfuel; omega)
            hrest
          rw [List.nil_append] at hE
          rw [hE]
          rfl
    | jobj fs =>
      cases fs with
      | nil => rfl
      | cons kv fs =>
        have hO : renderV ind d (jobj (kv :: fs)) ++ rest
            = '{' :: (nlIndent ind (d + 1) ++ (renderStrL kv.1
                ++ (':' :: (colonPad ind ++ (renderV ind (d + 1) kv.2
                  ++ (renderObjTail ind (d + 1) fs
                    ++ (nlIndent ind d ++ ('}' :: rest)))))))) := by
          show ('{' :: (nlIndent ind (d + 1) ++ renderStrL kv.1
              ++ ':' :: (colonPad ind ++ renderV ind (d + 1) kv.2)
              ++ renderObjTail ind (d + 1) fs ++ nlIndent ind d ++ ['}'])) ++ rest = _
          simp [List.append_assoc]
        rw [hO, parseVal_succ_lbrace]
        rw [skipWs_append_ws (nlIndent_ws ind (d + 1))]
        have hS : renderStrL kv.1 ++ (':' :: (colonPad ind ++ (renderV ind (d + 1) kv.2
              ++ (renderObjTail ind (d + 1) fs ++ (nlIndent ind d ++ ('}' :: rest))))))
            = '"' :: (kv.1.toList.flatMap escapeChar
                ++ '"' :: (':' :: (colonPad ind ++ (renderV ind (d + 1) kv.2
                  ++ (renderObjTail ind (d + 1) fs
                    ++ (nlIndent ind d ++ ('}' :: rest))))))) := by
          rw [renderStrL, List.cons_append, List.append_assoc]
          rfl
        rw [hS, skipWs_cons_not (by decide)]
        split
        · rename_i r' heq
          injection heq with hx hy
          exact absurd hx (by decide)
        · rw [← hS]
          have hM := parseMembers_render ind (d + 1) d f kv.1 kv.2 fs [] rest
            (by intro a ha; cases ha)
            (by simp [fuelV, fuelObj] at hfuel ⊢; omega)
            hrest
          rw [List.nil_append] at hM
          rw [hM]
          rfl
termination_by fuelV v
decreasing_by all_goals (simp_wf; subst_vars; simp only [fuelV, fuelArr, fuelObj]; omega)
theorem parseElems_render (ind d pd fuel : Nat) (x : JVal) (xs : List JVal)
    (ws rest : List Char) (hws : ∀ c ∈ ws, isWsC c = true)
    (hfuel : fuelArr (x :: xs) ≤ fuel) (hrest : noDigitHead rest = true) :
    parseElems fuel (ws ++ (renderV ind d x ++ (renderArrTail ind d xs
        ++ (nlIndent ind pd ++ (']' :: rest))))) = some (x :: xs, rest) := by
  cases fuel with
  | zero => exact absurd hfuel (by have := fuelArr_pos (x :: xs); omega)
  | succ f =>
    cases xs with
    | nil =>
      rw [show renderArrTail ind d ([] : List JVal) = [] from rfl, List.nil_append]
      have hV := parseVal_render ind d f x ws
        (nlIndent ind pd ++ (']' :: rest)) hws
        (by simp [fuelArr] at hfuel; omega)
        (noDigitHead_nlIndent ind pd ']' rest (by decide))
      simp only [parseElems, hV]
      rw [skipWs_append_ws (nlIndent_ws ind pd)]
      rfl
    | cons y ys =>
      rw [show renderArrTail ind d (y :: ys) ++ (nlIndent ind pd ++ (']' :: rest))
          = ',' :: (nlIndent ind d ++ (renderV ind d y ++ (renderArrTail ind d ys
            ++ (nlIndent ind pd ++ (']' :: rest))))) from by
        show (',' :: (nlIndent ind d ++ renderV ind d y ++ renderArrTail ind d ys))
            ++ (nlIndent ind pd ++ (']' :: rest)) = _
        simp [List.append_assoc]]
      have hV := parseVal_render ind d f x ws
        (',' :: (nlIndent ind d ++ (renderV ind d y ++ (renderArrTail ind d ys
          ++ (nlIndent ind pd ++ (']' :: rest)))))) hws
        (by simp [fuelArr] at hfuel; omega)
        (by rfl)
      simp only [parseElems, hV]
      rw [skipWs_cons_not (by decide)]
      have hE := parseElems_render ind d pd f y ys (nlIndent ind d) rest
        (nlIndent_ws ind d)
        (by simp [fuelArr] at hfuel ⊢; omega)
        hrest
      simp only [hE]
termination_by fuelArr (x :: xs)
decreasing_by all_goals (simp_wf; subst_vars; simp only [fuelV, fuelArr, fuelObj]; omega)
theorem parseMembers_render (ind d pd fuel : Nat) (k : String) (v : JVal)
    (fs : List (String × JVal)) (ws rest : List Char)
    (hws : ∀ c ∈ ws, isWsC c = true)
    (hfuel : fuelObj ((k, v) :: fs) ≤ fuel) (hrest : noDigitHead rest = true) :
    parseMembers fuel (ws ++ (renderStrL k ++ (':' :: (colonPad ind
        ++ (renderV ind d v ++ (renderObjTail ind d fs
          ++ (nlIndent ind pd ++ ('}' :: rest))))))))
      = some ((k, v) :: fs, rest) := by
  cases fuel with
  | zero => exact absurd hfuel (by have := fuelObj_pos ((k, v) :: fs); omega)
  | succ f =>
    have hS : renderStrL k ++ (':' :: (colonPad ind ++ (renderV ind d v
          ++ (renderObjTail ind d fs ++ (nlIndent ind pd ++ ('}' :: rest))))))
        = '"' :: (k.toList.flatMap escapeChar
            ++ '"' :: (':' :: (colonPad ind ++ (renderV ind d v
              ++ (renderObjTail ind d fs ++ (nlIndent ind pd ++ ('}' :: rest))))))) := by
      rw [renderStrL, List.cons_append, List.append_assoc]
      rfl
    simp only [parseMembers]
    rw [skipWs_append_ws hws, hS, skipWs_cons_not (by decide)]
    simp only [parseStrBody_render]
    rw [skipWs_cons_not (by decide)]
    have hV := parseVal_render ind d f v (colonPad ind)
      (renderObjTail ind d fs ++ (nlIndent ind pd ++ ('}' :: rest)))
      (colonPad_ws ind)
      (by simp [fuelObj] at hfuel; have := fuelObj_pos fs; omega)
      (noDigitHead_objTail ind d pd fs rest)
    simp only [hV]
    cases fs with
    | nil =>
      rw [show renderObjTail ind d ([] : List (String × JVal)) = [] from rfl,
        List.nil_append]
      rw [skipWs_append_ws (nlIndent_ws ind pd)]
      rfl
    | cons kv1 fs =>
      rw [show renderObjTail ind d (kv1 :: fs)
            ++ (nlIndent ind pd ++ ('}' :: rest))
          = ',' :: (nlIndent ind d ++ (renderStrL kv1.1 ++ (':' :: (colonPad ind
            ++ (renderV ind d kv1.2 ++ (renderObjTail ind d fs
              ++ (nlIndent ind pd ++ ('}' :: rest)))))))) from by
        show (',' :: (nlIndent ind d ++ renderStrL kv1.1
            ++ ':' :: (colonPad ind ++ renderV ind d kv1.2)
            ++ renderObjTail ind d fs)) ++ (nlIndent ind pd ++ ('}' :: rest)) = _
        simp [List.append_assoc]]
      rw [skipWs_cons_not (by decide)]
      have hM := parseMembers_render ind d pd f kv1.1 kv1.2 fs (nlIndent ind d) rest
        (nlIndent_ws ind d)
        (by simp [fuelObj] at hfuel ⊢; omega)
        hrest
      simp only [hM]
      rfl
termination_by fuelObj ((k, v) :: fs)
decreasing_by all_goals (simp_wf; subst_vars; simp only [fuelV, fuelArr, fuelObj]; omega)
end

theorem prodSnd_sizeOf_le (p : String × JVal) : sizeOf p.2 ≤ sizeOf p := by
  obtain ⟨a, b⟩ := p
  simp

mutual
/-- The rendered length (plus one) bounds the fuel a value needs. -/
theorem fuelV_le (ind d : Nat) (v : JVal) :
    fuelV v ≤ (renderV ind d v).length + 1 := by
  cases v with
  | jnull => simp [fuelV]
  | jbool b => cases b <;> simp [fuelV]
  | jnum n => simp [fuelV]
  | jstr s => simp [fuelV]
  | jarr xs =>
    cases xs with
    | nil => simp [fuelV, fuelArr, renderV]
    | cons x xs =>
      have hx := fuelV_le ind (d + 1) x
      have ht := fuelArr_le ind (d + 1) xs
      simp [fuelV, fuelArr, renderV, List.length_append] at hx ht ⊢
      omega
  | jobj fs =>
    cases fs with
    | nil => simp [fuelV, fuelObj, renderV]
    | cons kv fs =>
      have hv := fuelV_le ind (d + 1) kv.2
      have ht := fuelObj_le ind (d + 1) fs
      simp [fuelV, fuelObj, renderV, List.length_append] at hv ht ⊢
      omega
termination_by sizeOf v
decreasing_by all_goals (simp_wf; try first
  | omega
  | (refine lt_of_le_of_lt (prodSnd_sizeOf_le _) ?_; omega))
theorem fuelArr_le (ind d : Nat) (xs : List JVal) :
    fuelArr xs ≤ (renderArrTail ind d xs).length + 1 := by
  cases xs with
  | nil => simp [fuelArr]
  | cons x xs =>
    have hx := fuelV_le ind d x
    have ht := fuelArr_le ind d xs
    simp [fuelArr, renderArrTail, List.length_append] at hx ht ⊢
    omega
termination_by sizeOf xs
decreasing_by all_goals (simp_wf; try first
  | omega
  | (refine lt_of_le_of_lt (prodSnd_sizeOf_le _) ?_; omega))
theorem fuelObj_le (ind d : Nat) (fs : List (String × JVal)) :
    fuelObj fs ≤ (renderObjTail ind d fs).length + 1 := by
  cases fs with
  | nil => simp [fuelObj]
  | cons kv fs =>
    have hv := fuelV_le ind d kv.2
    have ht := fuelObj_le ind d fs
    simp [fuelObj, renderObjTail, List.length_append] at hv ht ⊢
    omega
termination_by sizeOf fs
decreasing_by all_goals (simp_wf; try first
  | omega
  | (refine lt_of_le_of_lt (prodSnd_sizeOf_le _) ?_; omega))
end

/-- `JSON.parse` inverts `JSON.stringify` at every indentation. -/
theorem parseJSON_stringify (ind : Nat) (v : JVal) :
    parseJSON (stringify ind v) = some v := by
  unfold parseJSON
  have htl : (stringify ind v).toList = renderV ind 0 v := rfl
  rw [htl]
  have h := parseVal_render ind 0 ((renderV ind 0 v).length + 1) v [] []
    (by intro a ha; cases ha)
    (by
      have := fuelV_le ind 0 v
      omega)
    rfl
  rw [List.nil_append, List.append_nil] at h
  simp only [h]
  rfl


/-! ### C4 — backup checksum integrity -/

/-- Objects and arrays are truthy. -/
theorem truthy_of_objLike {v : JVal} (h : (isObjJ v || isArrJ v) = true) :
    truthy v = true := by
  cases v <;> simp [isObjJ, isArrJ] at h <;> rfl

/-- A checksum string has eight characters, so it is nonempty. -/
theorem checksum32_ne_empty (s : String) : checksum32 s ≠ "" := by
  intro h
  have := congrArg String.length h
  have h8 : (checksum32 s).length = 8 := rfl
  rw [h] at h8
  cases h8

/-- The same, as a boolean disequality. -/
theorem checksum32_bne_empty (s : String) : (checksum32 s != "") = true := by
  simp [bne_iff_ne]
  exact checksum32_ne_empty s

/-- `previewImport` of an unmodified `exportDB` output: the parse round-trips,
the meta block checks out, and the recomputed checksum matches the injected
one, so the result is `ok` with no warnings. -/
theorem export_preview_clean (t : String) (db : JVal) (pretty : Bool)
    (hdb : (isObjJ db || isArrJ db) = true) :
    (previewImport (exportDB t db pretty)).ok = true
    ∧ (previewImport (exportDB t db pretty)).warnings = [] := by
  unfold exportDB
  simp only [previewImport, parseJSON_stringify]
  cases db <;> simp [isObjJ, isArrJ] at hdb <;>
    simp [exportPayload, exportPayloadNoCk, jget, objGet, objSet, objDel,
      isObjJ, isArrJ, truthyOpt, truthy, checksum32_bne_empty]

/-- One FNV-1a round stays below `2^32`. -/
theorem fnvStep_lt (h c : Nat) : fnvStep h c < 4294967296 :=
  Nat.mod_lt _ (by omega)

/-- UTF-16-range code points fit in 32 bits. -/
theorem char_toNat_lt (c : Char) : c.toNat < 4294967296 := by
  have := c.val.val.isLt
  simp [Char.toNat, UInt32.toNat] at this ⊢
  omega

/-- Multiplication by the odd FNV prime is injective modulo `2^32`. -/
theorem mulp_mod_inj {x y : Nat} (hx : x < 4294967296) (hy : y < 4294967296)
    (hne : x ≠ y) : (x * 16777619) % 4294967296 ≠ (y * 16777619) % 4294967296 := by
  intro heq
  have hmod : x % 4294967296 = y % 4294967296 :=
    Nat.ModEq.cancel_right_of_coprime (by norm_num) heq
  rw [Nat.mod_eq_of_lt hx, Nat.mod_eq_of_lt hy] at hmod
  exact hne hmod

/-- Xor of 32-bit values is 32-bit. -/
theorem xor_lt_32 {a b : Nat} (ha : a < 4294967296) (hb : b < 4294967296) :
    a ^^^ b < 4294967296 := by
  have : a ^^^ b < 2 ^ 32 := Nat.xor_lt_two_pow (by omega) (by omega)
  omega

/-- An FNV round is injective in the state. -/
theorem fnvStep_inj_state {h1 h2 : Nat} (c : Nat) (hb1 : h1 < 4294967296)
    (hb2 : h2 < 4294967296) (hc : c < 4294967296) (hne : h1 ≠ h2) :
    fnvStep h1 c ≠ fnvStep h2 c := by
  unfold fnvStep
  exact mulp_mod_inj (xor_lt_32 hb1 hc) (xor_lt_32 hb2 hc)
    (fun hh => hne (by
      have := congrArg (fun z => z ^^^ c) hh
      simpa [Nat.xor_assoc] using this))

/-- An FNV round is injective in the absorbed character. -/
theorem fnvStep_inj_char {h c1 c2 : Nat} (hb : h < 4294967296)
    (hc1 : c1 < 4294967296) (hc2 : c2 < 4294967296) (hne : c1 ≠ c2) :
    fnvStep h c1 ≠ fnvStep h c2 := by
  unfold fnvStep
  exact mulp_mod_inj (xor_lt_32 hb hc1) (xor_lt_32 hb hc2)
    (fun hh => hne (by
      have := congrArg (fun z => h ^^^ z) hh
      simpa [← Nat.xor_assoc] using this))

/-- The FNV state stays below `2^32`. -/
theorem foldl_fnv_lt (l : List Char) : ∀ h, h < 4294967296 →
    l.foldl (fun h c => fnvStep h c.toNat) h < 4294967296 := by
  induction l with
  | nil => intro h hh; exact hh
  | cons c cs ih =>
    intro h hh
    exact ih _ (fnvStep_lt h c.toNat)

/-- Absorbing a common suffix preserves state inequality. -/
theorem foldl_fnv_inj (l : List Char) : ∀ h1 h2, h1 < 4294967296 →
    h2 < 4294967296 → h1 ≠ h2 →
    l.foldl (fun h c => fnvStep h c.toNat) h1
      ≠ l.foldl (fun h c => fnvStep h c.toNat) h2 := by
  induction l with
  | nil => intro h1 h2 _ _ hne; exact hne
  | cons c cs ih =>
    intro h1 h2 hb1 hb2 hne
    exact ih _ _ (fnvStep_lt h1 c.toNat) (fnvStep_lt h2 c.toNat)
      (fnvStep_inj_state c.toNat hb1 hb2 (char_toNat_lt c) hne)

/-- Hex digits are distinct. -/
theorem toHexDigit_inj {a b : Nat} (ha : a < 16) (hb : b < 16)
    (h : toHexDigit a = toHexDigit b) : a = b := by
  interval_cases a <;> interval_cases b <;> revert h <;> decide

/-- The eight-hex-digit rendering is injective below `2^32`. -/
theorem toHex8_inj {n1 n2 : Nat} (h1 : n1 < 4294967296) (h2 : n2 < 4294967296)
    (h : toHex8 n1 = toHex8 n2) : n1 = n2 := by
  unfold toHex8 at h
  have hl := congrArg String.toList h
  simp only [String.toList] at hl
  injection hl with e1 hl
  injection hl with e2 hl
  injection hl with e3 hl
  injection hl with e4 hl
  injection hl with e5 hl
  injection hl with e6 hl
  injection hl with e7 hl
  injection hl with e8 hl
  have q1 := toHexDigit_inj (Nat.mod_lt _ (by omega)) (Nat.mod_lt _ (by omega)) e1
  have q2 := toHexDigit_inj (Nat.mod_lt _ (by omega)) (Nat.mod_lt _ (by omega)) e2
  have q3 := toHexDigit_inj (Nat.mod_lt _ (by omega)) (Nat.mod_lt _ (by omega)) e3
  have q4 := toHexDigit_inj (Nat.mod_lt _ (by omega)) (Nat.mod_lt _ (by omega)) e4
  have q5 := toHexDigit_inj (Nat.mod_lt _ (by omega)) (Nat.mod_lt _ (by omega)) e5
  have q6 := toHexDigit_inj (Nat.mod_lt _ (by omega)) (Nat.mod_lt _ (by omega)) e6
  have q7 := toHexDigit_inj (Nat.mod_lt _ (by omega)) (Nat.mod_lt _ (by omega)) e7
  have q8 := toHexDigit_inj (Nat.mod_lt _ (by omega)) (Nat.mod_lt _ (by omega)) e8
  omega

/-- Distinct characters have distinct code points. -/
theorem char_toNat_inj {c1 c2 : Char} (hne : c1 ≠ c2) : c1.toNat ≠ c2.toNat := by
  intro h
  exact hne (by rw [← Char.ofNat_toNat c1, ← Char.ofNat_toNat c2, h])

/-- Flipping any single character of a string changes its `checksum32`. -/
theorem checksum32_flip_ne (pre suf : List Char) {c1 c2 : Char} (hne : c1 ≠ c2) :
    checksum32 (String.mk (pre ++ c1 :: suf))
      ≠ checksum32 (String.mk (pre ++ c2 :: suf)) := by
  intro heq
  unfold checksum32 checksumNat at heq
  have hl1 : (String.mk (pre ++ c1 :: suf)).toList = pre ++ c1 :: suf := rfl
  have hl2 : (String.mk (pre ++ c2 :: suf)).toList = pre ++ c2 :: suf := rfl
  rw [hl1, hl2, List.foldl_append, List.foldl_append] at heq
  have hH : (pre.foldl (fun h c => fnvStep h c.toNat) 2166136261) < 4294967296 :=
    foldl_fnv_lt pre 2166136261 (by omega)
  have hck := toHex8_inj (foldl_fnv_lt _ _ (fnvStep_lt _ _))
    (foldl_fnv_lt _ _ (fnvStep_lt _ _)) heq
  exact foldl_fnv_inj suf _ _ (fnvStep_lt _ _) (fnvStep_lt _ _)
    (fnvStep_inj_char hH (char_toNat_lt c1) (char_toNat_lt c2) (char_toNat_inj hne))
    hck

/-- C4 counterexample: in the pretty export of a sample database (240 bytes,
with the `"db": ` key at index 126 and the serialised `db` payload starting
at index 132), the byte at index 136 — a space inside that payload — can be
flipped to a tab and `previewImport` still reports `ok` with no warnings:
pretty-printing bytes of the `db` payload are not covered by the checksum. -/
theorem export_flip_undetected :
    ((exportDB "TX" dbE true).toList.drop 126).take 6 = '"' :: ('d' :: ('b' :: ('"' :: (':' :: [' ']))))
    ∧ ((exportDB "TX" dbE true).toList.drop 132).take 1 = ['{']
    ∧ (exportDB "TX" dbE true).length = 240
    ∧ ((exportDB "TX" dbE true).toList.drop 136).take 1 = [' ']
    ∧ setCharAt (exportDB "TX" dbE true) 136 '\t' ≠ exportDB "TX" dbE true
    ∧ (previewImport (setCharAt (exportDB "TX" dbE true) 136 '\t')).ok = true
    ∧ (previewImport (setCharAt (exportDB "TX" dbE true) 136 '\t')).warnings = [] := by
  refine ⟨by decide, by decide, by decide, by decide, by decide, by decide, by decide⟩

/-- `previewImport` enforces the checksum on parsed imports: when the input
parses to an object carrying a `db` object/array and a `__meta` object with a
truthy `checksum32` string, and the checksum recomputed over the compact
serialisation of the checksum-stripped clone disagrees with the stored one,
the preview still succeeds but carries the checksum-mismatch warning. -/
theorem previewImport_mismatch_flagged (s : String) (o mf : List (String × JVal))
    (d : JVal) (c : String)
    (hparse : parseJSON s = some (jobj o))
    (hdbo : objGet o "db" = some d) (hd : (isObjJ d || isArrJ d) = true)
    (hmeta : objGet o "__meta" = some (jobj mf))
    (hck : objGet mf "checksum32" = some (jstr c)) (hcne : c ≠ "")
    (hmm : checksum32
        (stringifyC (jobj (objSet o "__meta" (jobj (objDel mf "checksum32"))))) ≠ c) :
    (previewImport s).ok = true
    ∧ checksumMismatchWarning ∈ (previewImport s).warnings := by
  have htr : truthy d = true := truthy_of_objLike hd
  have hcb : (c != "") = true := by simpa using hcne
  have hobj : (isObjJ (jobj o) || isArrJ (jobj o)) = true := rfl
  have hmf : truthy (jobj mf) = true := rfl
  have hcs : truthy (jstr c) = true := hcb
  refine ⟨?_, ?_⟩ <;>
    simp [previewImport, hparse, jget, hdbo, hmeta, hck, truthyOpt_some,
      htr, hd, hobj, hmf, hcs, hmm]

/-- C4 (amended): `previewImport` on the unmodified string produced by
`exportDB` reports no warnings at all — in particular no checksum warning —
for every database that serialises as an object or array.  The checksum is
computed over the exact unformatted serialisation, which it protects
byte-for-byte (flipping any single character of a checksummed string changes
`checksum32`), and `previewImport` does enforce it: it recomputes the
checksum over the compact serialisation of the checksum-stripped clone of
whatever parsed, and any import whose recomputed checksum disagrees with the
stored one is flagged with the mismatch warning.  What fails is only the
original per-byte claim about the PRETTY `db` payload: a corrupted
formatting byte survives parsing with the value unchanged, so the compact
re-serialisation — and with it the recomputed checksum — still matches
(`export_flip_undetected`). -/
theorem export_checksum_contract (t : String) (db : JVal) (pretty : Bool)
    (hdb : (isObjJ db || isArrJ db) = true)
    (pre suf : List Char) (c1 c2 : Char) (hne : c1 ≠ c2)
    (s : String) (o mf : List (String × JVal)) (d : JVal) (c : String)
    (hparse : parseJSON s = some (jobj o))
    (hdbo : objGet o "db" = some d) (hd : (isObjJ d || isArrJ d) = true)
    (hmeta : objGet o "__meta" = some (jobj mf))
    (hck : objGet mf "checksum32" = some (jstr c)) (hcne : c ≠ "")
    (hmm : checksum32
        (stringifyC (jobj (objSet o "__meta" (jobj (objDel mf "checksum32"))))) ≠ c) :
    ((previewImport (exportDB t db pretty)).ok = true
      ∧ (previewImport (exportDB t db pretty)).warnings = [])
    ∧ checksum32 (String.mk (pre ++ c1 :: suf))
        ≠ checksum32 (String.mk (pre ++ c2 :: suf))
    ∧ ((previewImport s).ok = true
      ∧ checksumMismatchWarning ∈ (previewImport s).warnings) :=
  ⟨export_preview_clean t db pretty hdb, checksum32_flip_ne pre suf hne,
   previewImport_mismatch_flagged s o mf d c hparse hdbo hd hmeta hck hcne hmm⟩

/-- C4 witness: the compact export of the empty object previews cleanly, a
one-character flip changes the checksum, and tampering with the exported
payload's `db` field (keeping the stored checksum) makes the preview raise
the checksum-mismatch warning. -/
theorem export_checksum_contract_witness :
    ((previewImport (exportDB "T" (jobj []) false)).ok = true
      ∧ (previewImport (exportDB "T" (jobj []) false)).warnings = [])
    ∧ checksum32 (String.mk ([] ++ 'a' :: []))
        ≠ checksum32 (String.mk ([] ++ 'b' :: []))
    ∧ ((previewImport (stringifyC (jobj (objSet
          (fieldsOf (exportPayload "T" (jobj []))) "db"
          (jobj [("x", jnum 1)]))))).ok = true
      ∧ checksumMismatchWarning ∈ (previewImport (stringifyC (jobj (objSet
          (fieldsOf (exportPayload "T" (jobj []))) "db"
          (jobj [("x", jnum 1)]))))).warnings) :=
  export_checksum_contract "T" (jobj []) false (by decide) [] [] 'a' 'b' (by decide)
    (stringifyC (jobj (objSet (fieldsOf (exportPayload "T" (jobj []))) "db"
      (jobj [("x", jnum 1)]))))
    (objSet (fieldsOf (exportPayload "T" (jobj []))) "db" (jobj [("x", jnum 1)]))
    [("type", jstr "erp_backup"), ("schemaVersion", jnum 1), ("exportedAt", jstr "T"),
     ("checksum32", jstr (checksum32 (stringifyC (exportPayloadNoCk "T" (jobj [])))))]
    (jobj [("x", jnum 1)])
    (checksum32 (stringifyC (exportPayloadNoCk "T" (jobj []))))
    (parseJSON_stringify 0 _) (by decide) (by decide) (by decide) (by decide)
    (by decide) (by decide)

/-! ### C8 — the snapshot ring -/

/-- `setItem` without failure injection writes through. -/
theorem ssetItem_none (env : StorageEnv) (k v : String) (hfa : env.failAfter = none) :
    ssetItem env k v = .ok { env with items := kvSet env.items k v } := by
  unfold ssetItem
  rw [hfa]

/-- A written key is found with its new value. -/
theorem find?_kvSet (items : List (String × String)) (k v : String) :
    (kvSet items k v).find? (fun p => p.1 == k) = some (k, v) := by
  induction items with
  | nil => simp [kvSet, List.find?]
  | cons p rest ih =>
    obtain ⟨k', v'⟩ := p
    by_cases h : k' = k
    · subst h
      simp [kvSet, List.find?]
    · rw [kvSet, if_neg h, List.find?]
      have hb : ((k', v').1 == k) = false := by simp [h]
      rw [hb]
      exact ih

/-- `getItem` after `setItem` returns the written value. -/
theorem sgetItem_kvSet (env : StorageEnv) (k v : String) :
    sgetItem { env with items := kvSet env.items k v } k = some v := by
  unfold sgetItem
  rw [show ({ env with items := kvSet env.items k v } : StorageEnv).items
      = kvSet env.items k v from rfl]
  rw [find?_kvSet]
  rfl

/-- `loadSnapshots` reads back exactly the array the store holds. -/
theorem loadSnapshots_after (env' : StorageEnv) (key : String) (arr : List JVal)
    (h : sgetItem env' (snapKey key) = some (stringifyC (jarr arr))) :
    loadSnapshots env' key = arr := by
  unfold loadSnapshots
  rw [h, show stringifyC (jarr arr) = stringify 0 (jarr arr) from rfl]
  simp only [parseJSON_stringify]

/-- C8: the default snapshot cap is 20, and after every successful
`createSnapshot` the stored snapshot list is the previous list with the new
snapshot prepended and truncated to the cap — its length never exceeds
`maxSnapshots` and the snapshot just created sits at index 0. -/
theorem createSnapshot_cap_head (env : StorageEnv) (key : String) (db : JVal)
    (cap : Nat) (id t : String) (hcap : 1 ≤ cap) (hfa : env.failAfter = none) :
    ({} : DbCoreState).maxSnapshots = 20
    ∧ ∃ env', createSnapshot env key db cap id t = .ok (id, env')
      ∧ loadSnapshots env' key
          = snapshotList (loadSnapshots env key) (mkSnapshot id t db) cap
      ∧ (loadSnapshots env' key).length ≤ cap
      ∧ (loadSnapshots env' key).head? = some (mkSnapshot id t db) := by
  refine ⟨rfl, ?_⟩
  refine ⟨{ env with
      items := kvSet env.items (snapKey key)
          (stringifyC (jarr (snapshotList (loadSnapshots env key)
            (mkSnapshot id t db) cap))) },
    ?_, ?_, ?_, ?_⟩
  · simp only [createSnapshot]
    rw [ssetItem_none env _ _ hfa]
  · exact loadSnapshots_after _ key _ (sgetItem_kvSet env (snapKey key) _)
  · rw [loadSnapshots_after _ key _ (sgetItem_kvSet env (snapKey key) _)]
    unfold snapshotList
    exact le_trans (List.length_take_le _ _) (le_refl _)
  · rw [loadSnapshots_after _ key _ (sgetItem_kvSet env (snapKey key) _)]
    unfold snapshotList
    obtain ⟨c, rfl⟩ : ∃ c, cap = c + 1 := ⟨cap - 1, by omega⟩
    rw [List.take_succ_cons]
    rfl

/-- C8 witness: two snapshots into a cap-1 ring on empty storage — the list
stays at length 1 with the newest snapshot in front. -/
theorem createSnapshot_cap_head_witness :
    ({} : DbCoreState).maxSnapshots = 20
    ∧ ∃ env', createSnapshot ⟨[], none, "x"⟩ "K" (jobj []) 1 "id1" "T" = .ok ("id1", env')
      ∧ loadSnapshots env' "K"
          = snapshotList (loadSnapshots ⟨[], none, "x"⟩ "K") (mkSnapshot "id1" "T" (jobj [])) 1
      ∧ (loadSnapshots env' "K").length ≤ 1
      ∧ (loadSnapshots env' "K").head? = some (mkSnapshot "id1" "T" (jobj [])) :=
  createSnapshot_cap_head ⟨[], none, "x"⟩ "K" (jobj []) 1 "id1" "T" (by decide) rfl


end Spec2Proof
